import Mathlib

/-!
Verification of the `pytrace-method` call tracer against its specification.

The development shallowly embeds `src/pytrace_method/tracer.py`:
Python values are modelled by the inductive `PyVal`, the value
formatter (`_format_value` / `_expand_object`), the structured
serializer (`_to_serializable`), the call-stack assembler
(`CallTracer.tracer`), and the session lifecycle
(`start`/`end`/`save`/`interactive`/`expand`/`include_stdlib`) are
translated function by function.  Python code that may raise an
exception is modelled in the `Except Unit` monad: `Except.error ()`
stands for a propagating Python exception.
-/

namespace Pytrace

/-! ### Character-list string primitives

Python string operations (`in`, `startswith`, slicing, `len`) are
modelled on `String.data` so that every operation reduces inside the
kernel.  `strTake s n` is Python `s[:n]`, `strContains s p` is
Python `p in s`, `strStartsWith s p` is `s.startswith(p)`. -/

def clPre : List Char → List Char → Bool
  | [], _ => true
  | _ :: _, [] => false
  | a :: pa, b :: pb => a == b && clPre pa pb

def clInf : List Char → List Char → Bool
  | pat, [] => pat.isEmpty
  | pat, s@(_ :: t) => clPre pat s || clInf pat t

def strContains (s pat : String) : Bool := clInf pat.data s.data

def strStartsWith (s pre : String) : Bool := clPre pre.data s.data

def strTake (s : String) (n : Nat) : String := String.mk (s.data.take n)

def strLen (s : String) : Nat := s.data.length

def joinSep (sep : String) : List String → String
  | [] => ""
  | [x] => x
  | x :: xs => x ++ sep ++ joinSep sep xs

/-- Model of `"  " * d` (Python string repetition used for indentation). -/
def twoSpaces (d : Nat) : String := String.mk (List.replicate (2 * d) ' ')

/-- Decimal digit character. -/
def digitChar (n : Nat) : Char := Char.ofNat (48 + n)

/-- Lowercase hex digit character. -/
def hexChar (n : Nat) : Char := if n < 10 then Char.ofNat (48 + n) else Char.ofNat (87 + n)

def natToStrAux : Nat → Nat → List Char
  | 0, _ => []
  | fuel + 1, n => if n < 10 then [digitChar n] else natToStrAux fuel (n / 10) ++ [digitChar (n % 10)]

/-- Model of Python `str(n)` for a non-negative integer (decimal digits). -/
def natToStr (n : Nat) : String := String.mk (natToStrAux (n + 1) n)

/-- Model of Python `str(n)` / `repr(n)` for an integer. -/
def intToStr : Int → String
  | .ofNat n => natToStr n
  | .negSucc n => "-" ++ natToStr (n + 1)

/-- The single-quote character, written via its code point. -/
def squote : Char := Char.ofNat 39

/-- Opening brace character. -/
def lbrace : Char := Char.ofNat 123

/-- Closing brace character. -/
def rbrace : Char := Char.ofNat 125

/-! ### Python values

`PyVal` is the domain of runtime values the tracer can encounter.
`inst` is an object exposing `__dict__` (its default `repr` carries the
environment-dependent text `<C object at 0x...>` as an opaque field);
`fallbackV` is a value without `__dict__` whose `repr`/`str` succeed
(functions, modules, ...); `badIntro` is a value whose `__dict__`
access raises while `repr`/`str` succeed; `hostile` is a value without
`__dict__` whose `repr` and `str` themselves raise.  Floats are not
modelled (floating point is outside the embedding). -/

inductive PyVal where
  | none
  | bool (b : Bool)
  | int (n : Int)
  | str (s : String)
  | list (xs : List PyVal)
  | tuple (xs : List PyVal)
  | dict (entries : List (PyVal × PyVal))
  | set (xs : List PyVal)
  | inst (cls : String) (attrs : List (String × PyVal)) (dfltRepr : String)
  | fallbackV (reprStr strStr : String)
  | badIntro (reprStr strStr : String)
  | hostile

/-- Escape of one character inside a Python string repr quoted by `q`
(backslash, the quote character, newline, carriage return, tab, and
other control characters as `\xHH`). -/
def pyCharEsc (q c : Char) : List Char :=
  if c = '\\' then ['\\', '\\']
  else if c = q then ['\\', q]
  else if c = '\n' then ['\\', 'n']
  else if c = '\r' then ['\\', 'r']
  else if c = '\t' then ['\\', 't']
  else if c.toNat < 32 ∨ c.toNat = 127 then
    ['\\', 'x', hexChar (c.toNat / 16), hexChar (c.toNat % 16)]
  else [c]

/-- The quote character Python `repr` picks for a string: single
quotes by default, double quotes when the string contains a single
quote but no double quote. -/
def pyReprQuote (s : String) : Char :=
  if s.data.contains squote && !(s.data.contains '"') then '"' else squote

/-- Model of Python `repr` on a string. -/
def pyReprOfStr (s : String) : String :=
  String.mk (pyReprQuote s :: (s.data.flatMap (pyCharEsc (pyReprQuote s))) ++ [pyReprQuote s])

mutual

/-- Model of Python `repr`.  `Except.error ()` models a `__repr__`
that raises; container reprs propagate failures of their elements. -/
def pyRepr : PyVal → Except Unit String
  | .none => .ok "None"
  | .bool b => .ok (if b then "True" else "False")
  | .int n => .ok (intToStr n)
  | .str s => .ok (pyReprOfStr s)
  | .list xs => do
    let ss ← pyReprList xs
    .ok ("[" ++ joinSep ", " ss ++ "]")
  | .tuple [] => .ok "()"
  | .tuple [v] => do
    let s ← pyRepr v
    .ok ("(" ++ s ++ ",)")
  | .tuple xs => do
    let ss ← pyReprList xs
    .ok ("(" ++ joinSep ", " ss ++ ")")
  | .dict [] => .ok (String.mk [lbrace, rbrace])
  | .dict es => do
    let ss ← pyReprEntries es
    .ok (String.mk [lbrace] ++ joinSep ", " ss ++ String.mk [rbrace])
  | .set [] => .ok "set()"
  | .set xs => do
    let ss ← pyReprList xs
    .ok (String.mk [lbrace] ++ joinSep ", " ss ++ String.mk [rbrace])
  | .inst _ _ d => .ok d
  | .fallbackV r _ => .ok r
  | .badIntro r _ => .ok r
  | .hostile => .error ()

def pyReprList : List PyVal → Except Unit (List String)
  | [] => .ok []
  | x :: xs => do
    let s ← pyRepr x
    let ss ← pyReprList xs
    .ok (s :: ss)

def pyReprEntries : List (PyVal × PyVal) → Except Unit (List String)
  | [] => .ok []
  | (k, v) :: es => do
    let sk ← pyRepr k
    let sv ← pyRepr v
    let ss ← pyReprEntries es
    .ok ((sk ++ ": " ++ sv) :: ss)

end

/-- Model of Python `str`: identity on strings, `repr` otherwise
(`Except.error ()` models a raising `__str__`). -/
def pyStr : PyVal → Except Unit String
  | .str s => .ok s
  | v => pyRepr v

/-! ### Display-string formatter (`CallTracer._expand_object`)

The source recurses with an increasing `current_depth`, stopping in
every composite branch once `current_depth >= self.expand_depth - 1`.
`expandObjectFuel` is the same function reparametrised by the fuel
`expand_depth - 1 - current_depth` (natural subtraction), which makes
the recursion structural: fuel `0` is exactly the source's depth
guard, and each recursive call at `current_depth + 1` has fuel one
less.  `current_depth` is still threaded through for the indentation
strings `"  " * current_depth`.  `expandObject` restores the source
signature. -/

def expandObjectFuel : Nat → PyVal → Nat → Except Unit String
  | _, .none, _ => .ok "None"
  | _, .bool b, _ => .ok (if b then "True" else "False")
  | _, .int n, _ => .ok (intToStr n)
  | _, .str s, _ =>
    .ok (if 100 < strLen s then
           String.mk (squote :: (strTake s 100).data) ++ "..." ++ String.mk [squote]
         else pyReprOfStr s)
  | _, .list [], _ => .ok "[]"
  | 0, .list xs, _ => .ok ("[" ++ natToStr xs.length ++ " items]")
  | fuel + 1, .list xs, d => do
    let items ← (xs.take 10).enum.mapM (fun p => do
      let f ← expandObjectFuel fuel p.2 (d + 1)
      Except.ok (twoSpaces (d + 1) ++ "[" ++ natToStr p.1 ++ "]: " ++ f))
    let items := if 10 < xs.length then
        items ++ [twoSpaces (d + 1) ++ "... (" ++ natToStr (xs.length - 10) ++ " more items)"]
      else items
    .ok ("[\n" ++ joinSep ",\n" items ++ "\n" ++ twoSpaces d ++ "]")
  | _, .tuple [], _ => .ok "()"
  | 0, .tuple xs, _ => .ok ("(" ++ natToStr xs.length ++ " items)")
  | fuel + 1, .tuple xs, d => do
    let items ← (xs.take 10).enum.mapM (fun p => do
      let f ← expandObjectFuel fuel p.2 (d + 1)
      Except.ok (twoSpaces (d + 1) ++ "[" ++ natToStr p.1 ++ "]: " ++ f))
    let items := if 10 < xs.length then
        items ++ [twoSpaces (d + 1) ++ "... (" ++ natToStr (xs.length - 10) ++ " more items)"]
      else items
    .ok ("(\n" ++ joinSep ",\n" items ++ "\n" ++ twoSpaces d ++ ")")
  | _, .dict [], _ => .ok (String.mk [lbrace, rbrace])
  | 0, .dict es, _ => .ok (String.mk [lbrace] ++ natToStr es.length ++ " keys" ++ String.mk [rbrace])
  | fuel + 1, .dict es, d => do
    let items ← (es.take 10).mapM (fun kv => do
      let rk ← pyRepr kv.1
      let fv ← expandObjectFuel fuel kv.2 (d + 1)
      Except.ok (twoSpaces (d + 1) ++ rk ++ ": " ++ fv))
    let items := if 10 < es.length then
        items ++ [twoSpaces (d + 1) ++ "... (" ++ natToStr (es.length - 10) ++ " more keys)"]
      else items
    .ok (String.mk [lbrace] ++ "\n" ++ joinSep ",\n" items ++ "\n" ++ twoSpaces d ++ String.mk [rbrace])
  | _, .set [], _ => .ok "set()"
  | 0, .set xs, _ => .ok (String.mk [lbrace] ++ natToStr xs.length ++ " items" ++ String.mk [rbrace])
  | _ + 1, .set xs, _ => do
    let rs ← pyReprList (xs.take 10)
    .ok (String.mk [lbrace] ++ joinSep ", " rs ++ String.mk [rbrace])
  | 0, .inst cls _ _, _ => .ok ("<" ++ cls ++ " object>")
  | fuel + 1, .inst cls attrs dfltRepr, d =>
    match (attrs.filter (fun a => !(strStartsWith a.1 "_"))).mapM (fun a => do
        let fv ← expandObjectFuel fuel a.2 (d + 1)
        Except.ok (a.1, fv)) with
    | .error _ => .ok (if 200 < strLen dfltRepr then strTake dfltRepr 200 ++ "..." else dfltRepr)
    | .ok [] => .ok ("<" ++ cls ++ " object>")
    | .ok kvs =>
      .ok ("<" ++ cls ++ ">\n" ++
           joinSep "\n" ((kvs.take 10).map (fun kv => twoSpaces (d + 1) ++ kv.1 ++ ": " ++ kv.2)) ++
           "\n" ++ twoSpaces d)
  | _, .fallbackV r _, _ => .ok (if 200 < strLen r then strTake r 200 ++ "..." else r)
  | _, .badIntro r _, _ => .ok (if 200 < strLen r then strTake r 200 ++ "..." else r)
  | _, .hostile, _ => .error ()

/-- Model of `CallTracer._expand_object(obj, current_depth)` with the
instance attribute `self.expand_depth` passed explicitly. -/
def expandObject (expandDepth : Nat) (v : PyVal) (currentDepth : Nat) : Except Unit String :=
  expandObjectFuel (expandDepth - 1 - currentDepth) v currentDepth

/-- Model of `CallTracer._format_value(val, max_len, current_depth)`;
the instance attributes `self.expand_objects`, `self.expand_depth` and
`self.max_param_len` are passed explicitly, and `maxLen = Option.none`
models the Python default argument `max_len=None`. -/
def formatValue (expandObjects : Bool) (expandDepth maxParamLen : Nat)
    (val : PyVal) (maxLen : Option Nat) (currentDepth : Nat) : Except Unit String :=
  let ml := maxLen.getD maxParamLen
  if expandObjects ∧ currentDepth < expandDepth then
    expandObject expandDepth val currentDepth
  else do
    let s ← pyRepr val
    .ok (if ml < strLen s then strTake s ml ++ "..." else s)

/-! ### Structured serializer (`CallTracer._to_serializable`)

`SNode` is the tagged-variant payload schema.  The source stops when
`current_depth > max_depth`; `toSerializableFuel` is the same function
reparametrised by the fuel `max_depth + 1 - current_depth`, so fuel
`0` is exactly the guard and children (serialized at
`current_depth + 1`) get fuel one less.  `toSerializable` restores the
source signature. -/

inductive SNode where
  | maxDepth
  | null
  | boolean (b : Bool)
  | number (n : Int)
  | string (s : String)
  | array (length : Nat) (value : List SNode)
  | tuple (length : Nat) (value : List SNode)
  | object (keys : List PyVal) (value : List (String × SNode))
  | set (length : Nat) (value : List SNode)
  | custom (cls : String) (value : List (String × SNode))
  | unknown (value : String)

def toSerializableFuel : Nat → PyVal → Except Unit SNode
  | 0, _ => .ok .maxDepth
  | fuel + 1, v =>
    match v with
    | .none => .ok .null
    | .bool b => .ok (.boolean b)
    | .int n => .ok (.number n)
    | .str s => .ok (.string s)
    | .list xs => do
      let cs ← xs.mapM (fun x => toSerializableFuel fuel x)
      .ok (.array xs.length cs)
    | .tuple xs => do
      let cs ← xs.mapM (fun x => toSerializableFuel fuel x)
      .ok (.tuple xs.length cs)
    | .dict es => do
      let vs ← es.mapM (fun kv => do
        let ks ← pyStr kv.1
        let sv ← toSerializableFuel fuel kv.2
        Except.ok (ks, sv))
      .ok (.object (es.map Prod.fst) vs)
    | .set xs => do
      let cs ← xs.mapM (fun x => toSerializableFuel fuel x)
      .ok (.set xs.length cs)
    | .inst cls attrs dfltRepr =>
      match (attrs.filter (fun a => !(strStartsWith a.1 "_"))).mapM (fun a => do
          let sv ← toSerializableFuel fuel a.2
          Except.ok (a.1, sv)) with
      | .ok es => .ok (.custom cls es)
      | .error _ => .ok (.unknown dfltRepr)
    | .fallbackV _ s => .ok (.unknown s)
    | .badIntro _ s => .ok (.unknown s)
    | .hostile => .error ()

/-- Model of `CallTracer._to_serializable(obj, current_depth, max_depth)`
(the Python defaults are `current_depth=0`, `max_depth=10`). -/
def toSerializable (v : PyVal) (currentDepth maxDepth : Nat) : Except Unit SNode :=
  toSerializableFuel (maxDepth + 1 - currentDepth) v

/-! ### Nesting depth of a serialized tree

A scalar/marker node has depth 0; a composite node has depth one more
than the maximum depth of its children (0 when childless). -/

mutual

def sdepth : SNode → Nat
  | .maxDepth => 0
  | .null => 0
  | .boolean _ => 0
  | .number _ => 0
  | .string _ => 0
  | .array _ cs => 1 + sdepthL cs
  | .tuple _ cs => 1 + sdepthL cs
  | .object _ es => 1 + sdepthE es
  | .set _ cs => 1 + sdepthL cs
  | .custom _ es => 1 + sdepthE es
  | .unknown _ => 0

def sdepthL : List SNode → Nat
  | [] => 0
  | c :: cs => max (sdepth c) (sdepthL cs)

def sdepthE : List (String × SNode) → Nat
  | [] => 0
  | (_, c) :: es => max (sdepth c) (sdepthE es)

end

/-! ### Call nodes and the tracer state

A parameter or return value is stored either raw (interactive mode)
or as a display string (`_format_value` output); `Node` mirrors the
Python `Node` class (`return_val` is `Option.none` until the matching
return event arrives, mirroring the initial `None`).

A `Frame` is a call that is still on `call_stack`.  In the source a
node is appended to its parent's mutable `children` list already on
the `call` event; functionally, a frame's `children` holds the
*completed* children, and the (at most one) still-open child is the
frame sitting directly above it on the stack.  `collapse` re-attaches
those open frames, recovering exactly the tree the mutable Python
objects form at any given moment. -/

inductive StoredVal where
  | raw (v : PyVal)
  | disp (s : String)

inductive Node where
  | mk (name : String) (file : String) (params : List (String × StoredVal))
       (return_val : Option StoredVal) (children : List Node)

def Node.name : Node → String
  | .mk n _ _ _ _ => n

def Node.file : Node → String
  | .mk _ f _ _ _ => f

def Node.params : Node → List (String × StoredVal)
  | .mk _ _ ps _ _ => ps

def Node.return_val : Node → Option StoredVal
  | .mk _ _ _ r _ => r

def Node.children : Node → List Node
  | .mk _ _ _ _ cs => cs

structure Frame where
  name : String
  file : String
  params : List (String × StoredVal)
  children : List Node

/-- Output actions of `end()`: the interactive HTML document, console
output of `print_tree`, and `write_to_file` output (each payload kept
in `Except` since rendering values can raise). -/
inductive ExportAction where
  | htmlFile (target : Option String) (doc : Except Unit (List String))
  | consoleOut (text : Except Unit String)
  | fileOut (target : String) (text : Except Unit String)

/-- The `CallTracer` instance state, fields in `__init__` order.
`stdlib_path` is the environment-supplied `os.path.dirname(os.__file__)`.
The two extra fields model external effects: `atexit_count` counts
calls of `atexit.register` and `exports` logs the output produced by
`end()`. -/
structure TracerState where
  call_stack : List Frame
  root : Option Node
  enabled : Bool
  save_file : Option String
  max_depth : Nat
  exclude_patterns : List String
  max_param_len : Nat
  expand_objects : Bool
  expand_depth : Nat
  interactive_html : Bool
  auto_end_registered : Bool
  trace_stdlib : Bool
  stdlib_path : String
  atexit_count : Nat
  exports : List ExportAction

/-- Model of `CallTracer.__init__` (a fresh tracer). -/
def initState (stdlibPath : String) : TracerState where
  call_stack := []
  root := Option.none
  enabled := false
  save_file := Option.none
  max_depth := 100
  exclude_patterns := ["site-packages", "threading.py", "atexit.py"]
  max_param_len := 50
  expand_objects := false
  expand_depth := 2
  interactive_html := false
  auto_end_registered := false
  trace_stdlib := false
  stdlib_path := stdlibPath
  atexit_count := 0
  exports := []

/-! ### Events and the ignore policy

An instrumentation event carries the routine name and file of the
frame (`frame.f_code.co_name` / `co_filename`); `call` additionally
carries the argument bindings, `ret` the return value (`arg`), and
`other` stands for any further `sys.settrace` event kind (`line`,
`exception`, ...), on which the tracer only returns itself. -/

inductive Event where
  | call (funcName fileName : String) (params : List (String × PyVal))
  | ret (funcName fileName : String) (arg : PyVal)
  | other (funcName fileName : String)

def Event.funcName : Event → String
  | .call n _ _ => n
  | .ret n _ _ => n
  | .other n _ => n

def Event.fileName : Event → String
  | .call _ f _ => f
  | .ret _ f _ => f
  | .other _ f => f

/-- The fixed list of the tracer's own method names
(`CallTracer._should_ignore`, second rule). -/
def internalNames : List String :=
  ["tracer", "_should_ignore", "_format_value", "_expand_object",
   "start", "end", "__enter__", "__exit__", "expand", "interactive",
   "print_tree", "write_to_file", "_write_tree", "_to_serializable",
   "save", "include_stdlib", "_node_to_dict", "_generate_html",
   "_register_auto_end", "_auto_end"]

/-- Model of `CallTracer._should_ignore(file_name, func_name)`. -/
def shouldIgnore (st : TracerState) (fileName funcName : String) : Bool :=
  if strStartsWith funcName "<" then true
  else if internalNames.contains funcName then true
  else if st.exclude_patterns.any (fun pat => strContains fileName pat) then true
  else if !st.trace_stdlib && strStartsWith fileName st.stdlib_path then true
  else false

/-- Parameter storage on a `call` event: raw values in interactive
mode, `_format_value` display strings otherwise (source lines 314-317). -/
def storeParams (st : TracerState) (ps : List (String × PyVal)) :
    Except Unit (List (String × StoredVal)) :=
  if st.interactive_html then .ok (ps.map (fun p => (p.1, StoredVal.raw p.2)))
  else ps.mapM (fun p => do
    let s ← formatValue st.expand_objects st.expand_depth st.max_param_len p.2 Option.none 0
    Except.ok (p.1, StoredVal.disp s))

/-- Return-value storage on a `return` event (source lines 333-336). -/
def storeRet (st : TracerState) (arg : PyVal) : Except Unit StoredVal :=
  if st.interactive_html then .ok (.raw arg)
  else do
    let s ← formatValue st.expand_objects st.expand_depth st.max_param_len arg Option.none 0
    .ok (.disp s)

/-- Model of `CallTracer.tracer(frame, event, arg)`, the call-stack
assembler.  Guards in source order: `enabled`, `_should_ignore`, the
depth cap `len(self.call_stack) > self.max_depth`.  On `call`, the new
node is pushed; the Python `self.root = node` assignment (taken
whenever the stack is empty) aliases the new mutable bottom node, so
the model clears the completed-`root` field and recovers the live tree
through `exportedRoot`/`collapse`; the completed value is written back
when the bottom frame is popped.  On `return` with a non-empty stack
the top frame is popped, closed with its return value, and recorded as
the last child of the frame below (in the source that attachment
already happened on the `call` event, into the parent's mutable list;
since only the top of the stack can acquire new children, the two
presentations produce identical trees).  A `return` on an empty stack
is dropped. -/
def tracerStep (st : TracerState) (ev : Event) : Except Unit TracerState :=
  if st.enabled = false then .ok st
  else if shouldIgnore st ev.fileName ev.funcName then .ok st
  else if st.max_depth < st.call_stack.length then .ok st
  else
    match ev with
    | .call funcName fileName ps => do
      let params ← storeParams st ps
      let node : Frame := ⟨funcName, fileName, params, []⟩
      .ok { st with
            call_stack := node :: st.call_stack,
            root := if st.call_stack.isEmpty then Option.none else st.root }
    | .ret _ _ arg =>
      match st.call_stack with
      | [] => .ok st
      | f :: rest => do
        let rv ← storeRet st arg
        let node : Node := .mk f.name f.file f.params (some rv) f.children
        match rest with
        | [] => .ok { st with call_stack := [], root := some node }
        | g :: rest2 =>
          .ok { st with call_stack := { g with children := g.children ++ [node] } :: rest2 }
    | .other _ _ => .ok st

/-- Processing of a whole event sequence (left fold of `tracerStep`);
an `Except.error` is a Python exception escaping the trace callback. -/
def runEvents (st : TracerState) (evs : List Event) : Except Unit TracerState :=
  evs.foldlM tracerStep st

/-- Closing of a still-open frame into a node (its `return_val` is the
initial `None`). -/
def closeFrame (f : Frame) : Node :=
  .mk f.name f.file f.params Option.none f.children

/-- Re-attachment of the open stack frames below a node: each frame
on the stack holds the frame above it as its last (still open) child. -/
def collapse : Node → List Frame → Node
  | n, [] => n
  | n, g :: rest => collapse (.mk g.name g.file g.params Option.none (g.children ++ [n])) rest

/-- The tree reachable from the Python `self.root` reference at this
moment: when the stack is non-empty its bottom frame is the object
`root` aliases (with all open frames re-attached); when the stack is
empty, `root` holds the last completed top-level node. -/
def exportedRoot (st : TracerState) : Option Node :=
  match st.call_stack with
  | [] => st.root
  | f :: rest => some (collapse (closeFrame f) rest)

/-! ### Session lifecycle operations

`sys.settrace` installation/removal is an external effect with no
bearing on the modelled state; `atexit.register` is counted in
`atexit_count`. -/

/-- Model of `CallTracer._register_auto_end`. -/
def registerAutoEnd (st : TracerState) : TracerState :=
  if st.auto_end_registered = false then
    { st with atexit_count := st.atexit_count + 1, auto_end_registered := true }
  else st

/-- Model of `CallTracer.start`. -/
def start (st : TracerState) : TracerState :=
  if st.enabled = false then
    { st with call_stack := [], root := Option.none, enabled := true }
  else st

/-- Model of `CallTracer.save(filename)`. -/
def save (st : TracerState) (filename : String) : TracerState :=
  start (registerAutoEnd { st with save_file := some filename })

/-- Model of `CallTracer.interactive(filename)`. -/
def interactive (st : TracerState) (filename : String) : TracerState :=
  start (registerAutoEnd { st with interactive_html := true, save_file := some filename })

/-- Model of `CallTracer.expand(depth)`. -/
def expand (st : TracerState) (depth : Nat) : TracerState :=
  start (registerAutoEnd { st with expand_objects := true, expand_depth := depth })

/-- Model of `CallTracer.include_stdlib`. -/
def include_stdlib (st : TracerState) : TracerState :=
  { st with trace_stdlib := true }

/-! ### Console and file exporters (`print_tree` / `write_to_file`)

Each line is `<indent><name>(<k>=<v>, ...) -> <return_val> [<file tail>]`;
the f-string conversion of a stored value is Python `str`, which can
raise for a hostile raw value, hence the `Except`. -/

/-- Python `node.file.split("/")[-1]`. -/
def lastPathComponent (s : String) : String :=
  String.mk ((s.data.reverse.takeWhile (fun c => c ≠ '/')).reverse)

/-- The f-string rendering of a stored value. -/
def storedDisplay : StoredVal → Except Unit String
  | .disp s => .ok s
  | .raw v => pyStr v

def paramStrs : List (String × StoredVal) → Except Unit (List String)
  | [] => .ok []
  | p :: ps => do
    let v ← storedDisplay p.2
    let rest ← paramStrs ps
    .ok ((p.1 ++ "=" ++ v) :: rest)

mutual

/-- The output lines of `print_tree(node, indent)` / `_write_tree`. -/
def nodeLines : Node → Nat → Except Unit (List String)
  | .mk name file params ret children, indent => do
    let pstrs ← paramStrs params
    let rv ← match ret with
      | Option.none => Except.ok "None"
      | some sv => storedDisplay sv
    let line := twoSpaces indent ++ name ++ "(" ++ joinSep ", " pstrs ++ ") -> " ++ rv ++
      " [" ++ lastPathComponent file ++ "]"
    let rest ← nodeLinesL children (indent + 1)
    .ok (line :: rest)

def nodeLinesL : List Node → Nat → Except Unit (List String)
  | [], _ => .ok []
  | c :: cs, indent => do
    let ls ← nodeLines c indent
    let rest ← nodeLinesL cs indent
    .ok (ls ++ rest)

end

/-- Text printed to the console by `print_tree()` called from `end()`
(each printed line gains a trailing newline). -/
def printTreeText (root : Option Node) : Except Unit String := do
  let body ← match root with
    | Option.none => Except.ok "No calls traced.\n"
    | some n => do
      let ls ← nodeLines n 0
      Except.ok (joinSep "" (ls.map (fun l => l ++ "\n")))
  .ok ("\nCALL TRACE:\n\n" ++ body)

/-- Text written by `write_to_file(filename)`. -/
def writeToFileText (root : Option Node) : Except Unit String := do
  let body ← match root with
    | Option.none => Except.ok "No calls traced.\n"
    | some n => do
      let ls ← nodeLines n 0
      Except.ok (joinSep "" (ls.map (fun l => l ++ "\n")))
  .ok ("CALL TRACE:\n\n" ++ body)

/-! ### Interactive-document exporter (`_node_to_dict` / `_generate_html`)

`Json` models the Python objects handed to `json.dumps`;
`jsonDumpsIndent` models `json.dumps(x, indent=2)` (default
`ensure_ascii` escaping; code points above the BMP are not refined).
The HTML document is modelled as its list of lines: the template is a
fixed f-string with exactly one interpolation, the `traceData`
payload, so the document is the template's lines with the payload
spliced into that line. -/

inductive Json where
  | null
  | bool (b : Bool)
  | num (n : Int)
  | str (s : String)
  | arr (items : List Json)
  | obj (entries : List (String × Json))

def hex4 (n : Nat) : List Char :=
  [hexChar (n / 4096 % 16), hexChar (n / 256 % 16), hexChar (n / 16 % 16), hexChar (n % 16)]

def jsonEscChar (c : Char) : List Char :=
  if c = '"' then ['\\', '"']
  else if c = '\\' then ['\\', '\\']
  else if c = '\n' then ['\\', 'n']
  else if c = '\r' then ['\\', 'r']
  else if c = '\t' then ['\\', 't']
  else if c.toNat < 32 ∨ 126 < c.toNat then '\\' :: 'u' :: hex4 c.toNat
  else [c]

def jsonQuote (s : String) : String :=
  String.mk ('"' :: s.data.flatMap jsonEscChar ++ ['"'])

def spacesN (n : Nat) : String := String.mk (List.replicate n ' ')

mutual

def jsonDumpsIndent : Json → Nat → String
  | .null, _ => "null"
  | .bool b, _ => if b then "true" else "false"
  | .num n, _ => intToStr n
  | .str s, _ => jsonQuote s
  | .arr [], _ => "[]"
  | .arr items, ind =>
    "[\n" ++ joinSep ",\n" (jsonDumpsArr items (ind + 2)) ++ "\n" ++ spacesN ind ++ "]"
  | .obj [], _ => "\x7b\x7d"
  | .obj es, ind =>
    "\x7b\n" ++ joinSep ",\n" (jsonDumpsObj es (ind + 2)) ++ "\n" ++ spacesN ind ++ "\x7d"

def jsonDumpsArr : List Json → Nat → List String
  | [], _ => []
  | it :: items, ind => (spacesN ind ++ jsonDumpsIndent it ind) :: jsonDumpsArr items ind

def jsonDumpsObj : List (String × Json) → Nat → List String
  | [], _ => []
  | (k, v) :: es, ind =>
    (spacesN ind ++ jsonQuote k ++ ": " ++ jsonDumpsIndent v ind) :: jsonDumpsObj es ind

end

mutual

/-- Conversion `json.dumps` applies to the raw Python key objects in
an `object` node's `keys` list (an external stdlib collaborator,
modelled for the hashable kinds a dict key can have; anything
`json.dumps` cannot serialize raises). -/
def pyValToJson : PyVal → Except Unit Json
  | .none => .ok .null
  | .bool b => .ok (.bool b)
  | .int n => .ok (.num n)
  | .str s => .ok (.str s)
  | .list xs => do
    let js ← pyValToJsonL xs
    .ok (.arr js)
  | .tuple xs => do
    let js ← pyValToJsonL xs
    .ok (.arr js)
  | _ => .error ()

def pyValToJsonL : List PyVal → Except Unit (List Json)
  | [] => .ok []
  | x :: xs => do
    let j ← pyValToJson x
    let js ← pyValToJsonL xs
    .ok (j :: js)

end

mutual

/-- The `json.dumps`-ready form of a serialized value (the dict
literals `_to_serializable` builds, as `Json`). -/
def snodeToJson : SNode → Except Unit Json
  | .maxDepth => .ok (.obj [("type", .str "max_depth"), ("value", .str "...")])
  | .null => .ok (.obj [("type", .str "null"), ("value", .null)])
  | .boolean b => .ok (.obj [("type", .str "boolean"), ("value", .bool b)])
  | .number n => .ok (.obj [("type", .str "number"), ("value", .num n)])
  | .string s => .ok (.obj [("type", .str "string"), ("value", .str s)])
  | .array len cs => do
    let js ← snodeToJsonL cs
    .ok (.obj [("type", .str "array"), ("length", .num len), ("value", .arr js)])
  | .tuple len cs => do
    let js ← snodeToJsonL cs
    .ok (.obj [("type", .str "tuple"), ("length", .num len), ("value", .arr js)])
  | .object keys es => do
    let ks ← pyValToJsonL keys
    let vs ← snodeToJsonE es
    .ok (.obj [("type", .str "object"), ("keys", .arr ks), ("value", .obj vs)])
  | .set len cs => do
    let js ← snodeToJsonL cs
    .ok (.obj [("type", .str "set"), ("length", .num len), ("value", .arr js)])
  | .custom cls es => do
    let vs ← snodeToJsonE es
    .ok (.obj [("type", .str "custom"), ("class", .str cls), ("value", .obj vs)])
  | .unknown s => .ok (.obj [("type", .str "unknown"), ("value", .str s)])

def snodeToJsonL : List SNode → Except Unit (List Json)
  | [] => .ok []
  | c :: cs => do
    let j ← snodeToJson c
    let js ← snodeToJsonL cs
    .ok (j :: js)

def snodeToJsonE : List (String × SNode) → Except Unit (List (String × Json))
  | [] => .ok []
  | (k, v) :: es => do
    let j ← snodeToJson v
    let js ← snodeToJsonE es
    .ok ((k, j) :: js)

end

/-- Serialization of a stored parameter/return value by
`_to_serializable` with the default depths (`current_depth=0`,
`max_depth=10`); a display string stored in non-interactive mode is a
Python `str`. -/
def storedToSNode : StoredVal → Except Unit SNode
  | .raw v => toSerializable v 0 10
  | .disp s => toSerializable (.str s) 0 10

def nodeParamsJson : List (String × StoredVal) → Except Unit (List (String × Json))
  | [] => .ok []
  | (k, v) :: ps => do
    let s ← storedToSNode v
    let j ← snodeToJson s
    let rest ← nodeParamsJson ps
    .ok ((k, j) :: rest)

mutual

/-- Model of `CallTracer._node_to_dict(node)` for a non-`None` node. -/
def nodeToDict : Node → Except Unit Json
  | .mk name file params ret children => do
    let ps ← nodeParamsJson params
    let rv ← (match ret with
      | Option.none => toSerializable PyVal.none 0 10
      | some sv => storedToSNode sv)
    let rvj ← snodeToJson rv
    let cs ← nodeToDictL children
    .ok (.obj [("name", .str name), ("file", .str (lastPathComponent file)),
      ("params", .obj ps), ("return_val", rvj), ("children", .arr cs)])

def nodeToDictL : List Node → Except Unit (List Json)
  | [] => .ok []
  | c :: cs => do
    let j ← nodeToDict c
    let js ← nodeToDictL cs
    .ok (j :: js)

end

/-- Model of `_node_to_dict` including the `None` case: the Python
`None` it returns renders as JSON `null`. -/
def nodeToDictOpt : Option Node → Except Unit Json
  | Option.none => .ok .null
  | some n => nodeToDict n

/-- Lines of the `_generate_html` template before the `traceData` payload line (the f-string with doubled braces resolved) -/
def htmlPrefixLines : List String :=
  ["<!DOCTYPE html>",
   "<html lang=\"en\">",
   "<head>",
   "    <meta charset=\"UTF-8\">",
   "    <meta name=\"viewport\" content=\"width=device-width, initial-scale=1.0\">",
   "    <title>Call Trace - Interactive</title>",
   "    <style>",
   "        * \x7b",
   "            margin: 0;",
   "            padding: 0;",
   "            box-sizing: border-box;",
   "        \x7d",
   "        ",
   "        body \x7b",
   "            font-family: \x27Consolas\x27, \x27Monaco\x27, \x27Courier New\x27, monospace;",
   "            background: #1e1e1e;",
   "            color: #d4d4d4;",
   "            padding: 20px;",
   "            font-size: 14px;",
   "        \x7d",
   "        ",
   "        .container \x7b",
   "            max-width: 1400px;",
   "            margin: 0 auto;",
   "        \x7d",
   "        ",
   "        h1 \x7b",
   "            color: #4ec9b0;",
   "            margin-bottom: 20px;",
   "            font-size: 24px;",
   "        \x7d",
   "        ",
   "        .call-tree \x7b",
   "            background: #252526;",
   "            border-radius: 8px;",
   "            padding: 20px;",
   "        \x7d",
   "        ",
   "        .call-node \x7b",
   "            margin: 8px 0;",
   "            margin-left: 20px;",
   "        \x7d",
   "        ",
   "        .call-header \x7b",
   "            display: flex;",
   "            align-items: center;",
   "            gap: 8px;",
   "            padding: 6px 10px;",
   "            background: #2d2d30;",
   "            border-radius: 4px;",
   "            border-left: 3px solid #007acc;",
   "            cursor: pointer;",
   "            transition: background 0.2s;",
   "        \x7d",
   "        ",
   "        .call-header:hover \x7b",
   "            background: #3e3e42;",
   "        \x7d",
   "        ",
   "        .toggle \x7b",
   "            color: #858585;",
   "            user-select: none;",
   "            width: 16px;",
   "            text-align: center;",
   "        \x7d",
   "        ",
   "        .func-name \x7b",
   "            color: #dcdcaa;",
   "            font-weight: bold;",
   "        \x7d",
   "        ",
   "        .params \x7b",
   "            color: #9cdcfe;",
   "        \x7d",
   "        ",
   "        .return-arrow \x7b",
   "            color: #858585;",
   "            margin: 0 8px;",
   "        \x7d",
   "        ",
   "        .return-value \x7b",
   "            color: #ce9178;",
   "        \x7d",
   "        ",
   "        .file \x7b",
   "            color: #858585;",
   "            font-size: 12px;",
   "            margin-left: auto;",
   "        \x7d",
   "        ",
   "        .object-viewer \x7b",
   "            margin: 10px 0 10px 40px;",
   "            background: #1e1e1e;",
   "            border-radius: 4px;",
   "            padding: 10px;",
   "            border-left: 2px solid #3e3e42;",
   "        \x7d",
   "        ",
   "        .object-viewer.collapsed \x7b",
   "            display: none;",
   "        \x7d",
   "        ",
   "        .obj-line \x7b",
   "            margin: 4px 0;",
   "            display: flex;",
   "            align-items: flex-start;",
   "        \x7d",
   "        ",
   "        .obj-key \x7b",
   "            color: #9cdcfe;",
   "            margin-right: 8px;",
   "        \x7d",
   "        ",
   "        .obj-value \x7b",
   "            color: #ce9178;",
   "        \x7d",
   "        ",
   "        .obj-type \x7b",
   "            color: #4ec9b0;",
   "            font-style: italic;",
   "        \x7d",
   "        ",
   "        .obj-expand \x7b",
   "            color: #858585;",
   "            cursor: pointer;",
   "            user-select: none;",
   "            margin-right: 8px;",
   "        \x7d",
   "        ",
   "        .obj-expand:hover \x7b",
   "            color: #d4d4d4;",
   "        \x7d",
   "        ",
   "        .obj-content \x7b",
   "            margin-left: 20px;",
   "        \x7d",
   "        ",
   "        .obj-content.collapsed \x7b",
   "            display: none;",
   "        \x7d",
   "        ",
   "        .primitive \x7b",
   "            color: #b5cea8;",
   "        \x7d",
   "        ",
   "        .string \x7b",
   "            color: #ce9178;",
   "        \x7d",
   "        ",
   "        .number \x7b",
   "            color: #b5cea8;",
   "        \x7d",
   "        ",
   "        .boolean \x7b",
   "            color: #569cd6;",
   "        \x7d",
   "        ",
   "        .null \x7b",
   "            color: #569cd6;",
   "        \x7d",
   "        ",
   "        .children \x7b",
   "            margin-left: 0px;",
   "        \x7d",
   "        ",
   "        .children.collapsed \x7b",
   "            display: none;",
   "        \x7d",
   "    </style>",
   "</head>",
   "<body>",
   "    <div class=\"container\">",
   "        <h1>üîç Interactive Call Trace</h1>",
   "        <div class=\"call-tree\" id=\"callTree\"></div>",
   "    </div>",
   "",
   "    <script>"]

/-- Lines of the `_generate_html` template after the `traceData` payload line -/
def htmlSuffixLines : List String :=
  ["        ",
   "        function renderValue(value, key = null) \x7b",
   "            if (!value) return \x27<span class=\"null\">null</span>\x27;",
   "            ",
   "            const type = value.type;",
   "            ",
   "            if (type === \x27null\x27) \x7b",
   "                return \x27<span class=\"null\">null</span>\x27;",
   "            \x7d",
   "            ",
   "            if (type === \x27string\x27) \x7b",
   "                const escaped = escapeHtml(value.value);",
   "                return \x60<span class=\"string\">\"$\x7bescaped\x7d\"</span>\x60;",
   "            \x7d",
   "            ",
   "            if (type === \x27number\x27) \x7b",
   "                return \x60<span class=\"number\">$\x7bvalue.value\x7d</span>\x60;",
   "            \x7d",
   "            ",
   "            if (type === \x27boolean\x27) \x7b",
   "                return \x60<span class=\"boolean\">$\x7bvalue.value\x7d</span>\x60;",
   "            \x7d",
   "            ",
   "            if (type === \x27array\x27 || type === \x27tuple\x27) \x7b",
   "                const id = \x27obj_\x27 + Math.random().toString(36).substr(2, 9);",
   "                const typeName = type === \x27tuple\x27 ? \x27tuple\x27 : \x27Array\x27;",
   "                let html = \x60<div class=\"obj-line\">\x60;",
   "                html += \x60<span class=\"obj-expand\" onclick=\"toggleObj(\x27$\x7bid\x7d\x27)\">‚ñ∂</span>\x60;",
   "                html += \x60<span class=\"obj-type\">$\x7btypeName\x7d($\x7bvalue.length\x7d)</span>\x60;",
   "                html += \x60<div class=\"obj-content collapsed\" id=\"$\x7bid\x7d\">\x60;",
   "                ",
   "                value.value.forEach((item, i) => \x7b",
   "                    html += \x60<div class=\"obj-line\">\x60;",
   "                    html += \x60<span class=\"obj-key\">$\x7bi\x7d:</span>\x60;",
   "                    html += renderValue(item);",
   "                    html += \x60</div>\x60;",
   "                \x7d);",
   "                ",
   "                html += \x60</div></div>\x60;",
   "                return html;",
   "            \x7d",
   "            ",
   "            if (type === \x27object\x27) \x7b",
   "                const id = \x27obj_\x27 + Math.random().toString(36).substr(2, 9);",
   "                let html = \x60<div class=\"obj-line\">\x60;",
   "                html += \x60<span class=\"obj-expand\" onclick=\"toggleObj(\x27$\x7bid\x7d\x27)\">‚ñ∂</span>\x60;",
   "                html += \x60<span class=\"obj-type\">Object($\x7bvalue.keys.length\x7d)</span>\x60;",
   "                html += \x60<div class=\"obj-content collapsed\" id=\"$\x7bid\x7d\">\x60;",
   "                ",
   "                for (const [k, v] of Object.entries(value.value)) \x7b",
   "                    html += \x60<div class=\"obj-line\">\x60;",
   "                    html += \x60<span class=\"obj-key\">$\x7bk\x7d:</span>\x60;",
   "                    html += renderValue(v);",
   "                    html += \x60</div>\x60;",
   "                \x7d",
   "                ",
   "                html += \x60</div></div>\x60;",
   "                return html;",
   "            \x7d",
   "            ",
   "            if (type === \x27custom\x27) \x7b",
   "                const id = \x27obj_\x27 + Math.random().toString(36).substr(2, 9);",
   "                let html = \x60<div class=\"obj-line\">\x60;",
   "                html += \x60<span class=\"obj-expand\" onclick=\"toggleObj(\x27$\x7bid\x7d\x27)\">‚ñ∂</span>\x60;",
   "                html += \x60<span class=\"obj-type\">$\x7bvalue.class\x7d</span>\x60;",
   "                html += \x60<div class=\"obj-content collapsed\" id=\"$\x7bid\x7d\">\x60;",
   "                ",
   "                for (const [k, v] of Object.entries(value.value)) \x7b",
   "                    html += \x60<div class=\"obj-line\">\x60;",
   "                    html += \x60<span class=\"obj-key\">$\x7bk\x7d:</span>\x60;",
   "                    html += renderValue(v);",
   "                    html += \x60</div>\x60;",
   "                \x7d",
   "                ",
   "                html += \x60</div></div>\x60;",
   "                return html;",
   "            \x7d",
   "            ",
   "            if (type === \x27set\x27) \x7b",
   "                const id = \x27obj_\x27 + Math.random().toString(36).substr(2, 9);",
   "                let html = \x60<div class=\"obj-line\">\x60;",
   "                html += \x60<span class=\"obj-expand\" onclick=\"toggleObj(\x27$\x7bid\x7d\x27)\">‚ñ∂</span>\x60;",
   "                html += \x60<span class=\"obj-type\">Set($\x7bvalue.length\x7d)</span>\x60;",
   "                html += \x60<div class=\"obj-content collapsed\" id=\"$\x7bid\x7d\">\x60;",
   "                ",
   "                value.value.forEach((item, i) => \x7b",
   "                    html += \x60<div class=\"obj-line\">\x60;",
   "                    html += renderValue(item);",
   "                    html += \x60</div>\x60;",
   "                \x7d);",
   "                ",
   "                html += \x60</div></div>\x60;",
   "                return html;",
   "            \x7d",
   "            ",
   "            return \x60<span class=\"obj-value\">$\x7bescapeHtml(String(value.value))\x7d</span>\x60;",
   "        \x7d",
   "        ",
   "        function renderNode(node, level = 0) \x7b",
   "            if (!node) return \x27\x27;",
   "            ",
   "            const nodeId = \x27node_\x27 + Math.random().toString(36).substr(2, 9);",
   "            const childrenId = \x27children_\x27 + Math.random().toString(36).substr(2, 9);",
   "            const paramsId = \x27params_\x27 + Math.random().toString(36).substr(2, 9);",
   "            ",
   "            let html = \x60<div class=\"call-node\">\x60;",
   "            ",
   "            // Call header",
   "            html += \x60<div class=\"call-header\" onclick=\"toggleNode(\x27$\x7bchildrenId\x7d\x27, \x27$\x7bparamsId\x7d\x27, this)\">\x60;",
   "            html += \x60<span class=\"toggle\">‚ñº</span>\x60;",
   "            html += \x60<span class=\"func-name\">$\x7bnode.name\x7d()</span>\x60;",
   "            html += \x60<span class=\"return-arrow\">‚Üí</span>\x60;",
   "            html += \x60<span class=\"return-value\">$\x7bgetValuePreview(node.return_val)\x7d</span>\x60;",
   "            html += \x60<span class=\"file\">[$\x7bnode.file\x7d]</span>\x60;",
   "            html += \x60</div>\x60;",
   "            ",
   "            // Parameters viewer",
   "            if (Object.keys(node.params).length > 0) \x7b",
   "                html += \x60<div class=\"object-viewer\" id=\"$\x7bparamsId\x7d\">\x60;",
   "                html += \x60<div style=\"color: #4ec9b0; margin-bottom: 8px; font-weight: bold;\">Parameters:</div>\x60;",
   "                for (const [key, value] of Object.entries(node.params)) \x7b",
   "                    html += \x60<div class=\"obj-line\">\x60;",
   "                    html += \x60<span class=\"obj-key\">$\x7bkey\x7d:</span>\x60;",
   "                    html += renderValue(value);",
   "                    html += \x60</div>\x60;",
   "                \x7d",
   "                html += \x60</div>\x60;",
   "            \x7d",
   "            ",
   "            // Children",
   "            if (node.children && node.children.length > 0) \x7b",
   "                html += \x60<div class=\"children\" id=\"$\x7bchildrenId\x7d\">\x60;",
   "                node.children.forEach(child => \x7b",
   "                    html += renderNode(child, level + 1);",
   "                \x7d);",
   "                html += \x60</div>\x60;",
   "            \x7d",
   "            ",
   "            html += \x60</div>\x60;",
   "            return html;",
   "        \x7d",
   "        ",
   "        function getValuePreview(value) \x7b",
   "            if (!value) return \x27null\x27;",
   "            ",
   "            const type = value.type;",
   "            ",
   "            if (type === \x27null\x27) return \x27null\x27;",
   "            if (type === \x27string\x27) return \x60\"$\x7bvalue.value.substring(0, 30)\x7d$\x7bvalue.value.length > 30 ? \x27...\x27 : \x27\x27\x7d\"\x60;",
   "            if (type === \x27number\x27) return String(value.value);",
   "            if (type === \x27boolean\x27) return String(value.value);",
   "            if (type === \x27array\x27) return \x60Array($\x7bvalue.length\x7d)\x60;",
   "            if (type === \x27tuple\x27) return \x60tuple($\x7bvalue.length\x7d)\x60;",
   "            if (type === \x27object\x27) return \x60Object($\x7bvalue.keys.length\x7d)\x60;",
   "            if (type === \x27custom\x27) return value.class;",
   "            if (type === \x27set\x27) return \x60Set($\x7bvalue.length\x7d)\x60;",
   "            ",
   "            return String(value.value).substring(0, 30);",
   "        \x7d",
   "        ",
   "        function toggleNode(childrenId, paramsId, header) \x7b",
   "            const children = document.getElementById(childrenId);",
   "            const params = document.getElementById(paramsId);",
   "            const toggle = header.querySelector(\x27.toggle\x27);",
   "            ",
   "            if (children) \x7b",
   "                children.classList.toggle(\x27collapsed\x27);",
   "            \x7d",
   "            if (params) \x7b",
   "                params.classList.toggle(\x27collapsed\x27);",
   "            \x7d",
   "            ",
   "            toggle.textContent = toggle.textContent === \x27‚ñº\x27 ? \x27‚ñ∂\x27 : \x27‚ñº\x27;",
   "        \x7d",
   "        ",
   "        function toggleObj(id) \x7b",
   "            const el = document.getElementById(id);",
   "            const toggle = el.previousElementSibling;",
   "            ",
   "            el.classList.toggle(\x27collapsed\x27);",
   "            toggle.textContent = toggle.textContent === \x27‚ñ∂\x27 ? \x27‚ñº\x27 : \x27‚ñ∂\x27;",
   "        \x7d",
   "        ",
   "        function escapeHtml(text) \x7b",
   "            const div = document.createElement(\x27div\x27);",
   "            div.textContent = text;",
   "            return div.innerHTML;",
   "        \x7d",
   "        ",
   "        // Render the tree",
   "        document.getElementById(\x27callTree\x27).innerHTML = renderNode(traceData);",
   "    </script>",
   "</body>",
   "</html>"]

/-- The payload `json.dumps(tree_data, indent=2)` of `_generate_html`. -/
def generateHtmlPayload (root : Option Node) : Except Unit String := do
  let j ← nodeToDictOpt root
  .ok (jsonDumpsIndent j 0)

/-- The lines of the document `_generate_html` writes: the template
with the payload spliced into the `traceData` line. -/
def generateHtmlLines (root : Option Node) : Except Unit (List String) := do
  let payload ← generateHtmlPayload root
  .ok (htmlPrefixLines ++ ("        const traceData = " ++ payload ++ ";") :: htmlSuffixLines)

/-- Whether some line of a document contains the given text. -/
def docContains (doc : List String) (pat : String) : Bool :=
  doc.any (fun l => strContains l pat)

/-! ### Session end (`CallTracer.end`) -/

/-- The output `end()` produces for the current tree: the interactive
document in interactive mode, otherwise the console rendering plus,
when a save target is set, the file rendering. -/
def exportBatch (st : TracerState) : List ExportAction :=
  if st.interactive_html then
    [.htmlFile st.save_file (generateHtmlLines (exportedRoot st))]
  else
    .consoleOut (printTreeText (exportedRoot st)) ::
    (match st.save_file with
     | some fn => [.fileOut fn (writeToFileText (exportedRoot st))]
     | Option.none => [])

/-- Model of `CallTracer.end`: a no-op when already disabled;
otherwise uninstalls the hook (external), disables, exports, and
resets the session-scoped flags `expand_objects`, `interactive_html`,
`trace_stdlib` (`expand_depth`, `save_file` and the tree survive). -/
def endTracing (st : TracerState) : TracerState :=
  if st.enabled = false then st
  else
    { st with
      enabled := false,
      exports := st.exports ++ exportBatch st,
      expand_objects := false,
      interactive_html := false,
      trace_stdlib := false }

/-! ### Name-and-nesting shapes of call trees

`Shape` forgets parameters, files and return values of a `Node`,
keeping routine names and the parent/child nesting; the spec's
assembler properties are statements about shapes. -/

inductive Shape where
  | mk (name : String) (children : List Shape)

def Shape.name : Shape → String
  | .mk n _ => n

def Shape.children : Shape → List Shape
  | .mk _ cs => cs

mutual

def nodeShape : Node → Shape
  | .mk n _ _ _ cs => .mk n (nodeShapeL cs)

def nodeShapeL : List Node → List Shape
  | [] => []
  | c :: cs => nodeShape c :: nodeShapeL cs

end

mutual

def preorderNames : Node → List String
  | .mk n _ _ _ cs => n :: preorderNamesL cs

def preorderNamesL : List Node → List String
  | [] => []
  | c :: cs => preorderNames c ++ preorderNamesL cs

end

mutual

def countNodes : Node → Nat
  | .mk _ _ _ _ cs => 1 + countNodesL cs

def countNodesL : List Node → Nat
  | [] => 0
  | c :: cs => countNodes c + countNodesL cs

end

mutual

def nodeHeight : Node → Nat
  | .mk _ _ _ _ cs => 1 + nodeHeightL cs

def nodeHeightL : List Node → Nat
  | [] => 0
  | c :: cs => max (nodeHeight c) (nodeHeightL cs)

end

mutual

def shapeHeight : Shape → Nat
  | .mk _ cs => 1 + shapeHeightL cs

def shapeHeightL : List Shape → Nat
  | [] => 0
  | c :: cs => max (shapeHeight c) (shapeHeightL cs)

end

mutual

def preorderShape : Shape → List String
  | .mk n cs => n :: preorderShapeL cs

def preorderShapeL : List Shape → List String
  | [] => []
  | c :: cs => preorderShape c ++ preorderShapeL cs

end

/-- The routine names of the `call` events of a sequence, in order. -/
def enterNames : List Event → List String
  | [] => []
  | .call n _ _ :: rest => n :: enterNames rest
  | .ret _ _ _ :: rest => enterNames rest
  | .other _ _ :: rest => enterNames rest

/-! ### Well-formed event sequences

`ForestTrace evs ss` holds when `evs` is a concatenation of complete
call/return-balanced segments, one per shape in `ss`: each segment
opens with a `call`, contains the complete trace of the children
forest, and closes with the matching `ret`.  `OpenTrace evs s` holds
when `evs` is a single top-level `call` whose matching return never
arrives, followed by complete child traces and at most one open
deeper call chain (the nesting recorded in `s`).  `SessionTrace`
combines both: one top-level call, either completed or still open —
these are exactly the well-formed sequences (every exit matched by a
preceding unmatched enter) with a single top-level enter. -/

inductive ForestTrace : List Event → List Shape → Prop where
  | nil : ForestTrace [] []
  | cons : ∀ (n file : String) (ps : List (String × PyVal)) (rn rf : String) (rv : PyVal)
      (body rest : List Event) (cs ss : List Shape),
      ForestTrace body cs → ForestTrace rest ss →
      ForestTrace ((Event.call n file ps :: body ++ [Event.ret rn rf rv]) ++ rest)
        (Shape.mk n cs :: ss)

inductive OpenTrace : List Event → Shape → Prop where
  | last : ∀ (n file : String) (ps : List (String × PyVal)) (body : List Event) (cs : List Shape),
      ForestTrace body cs →
      OpenTrace (Event.call n file ps :: body) (Shape.mk n cs)
  | step : ∀ (n file : String) (ps : List (String × PyVal)) (body deeper : List Event)
      (cs : List Shape) (d : Shape),
      ForestTrace body cs → OpenTrace deeper d →
      OpenTrace (Event.call n file ps :: (body ++ deeper)) (Shape.mk n (cs ++ [d]))

inductive SessionTrace : List Event → Shape → Prop where
  | closed : ∀ evs s, ForestTrace evs [s] → SessionTrace evs s
  | stillOpen : ∀ evs s, OpenTrace evs s → SessionTrace evs s

/-- Success of the value-formatting part of one event against the
session's configuration. -/
def evFormats (st : TracerState) : Event → Except Unit Unit
  | .call _ _ ps => (storeParams st ps).map (fun _ => ())
  | .ret _ _ arg => (storeRet st arg).map (fun _ => ())
  | .other _ _ => .ok ()

/-- An event that is not filtered by the ignore policy and whose
values format without an exception. -/
def evAdmitted (st : TracerState) (e : Event) : Prop :=
  shouldIgnore st e.fileName e.funcName = false ∧ evFormats st e = .ok ()

theorem evAdmitted_update (st : TracerState) (c : List Frame) (r : Option Node) (e : Event) :
    evAdmitted { st with call_stack := c, root := r } e ↔ evAdmitted st e := by
  cases e <;> exact Iff.rfl

theorem except_map_unit_ok {α : Type} (x : Except Unit α)
    (h : x.map (fun _ => ()) = .ok ()) : ∃ v, x = .ok v := by
  cases x with
  | ok v => exact ⟨v, rfl⟩
  | error e => simp [Except.map] at h

/-! ### Basic run lemmas -/

theorem except_bind_ok {ε α β : Type} (a : α) (f : α → Except ε β) :
    (Except.ok a >>= f) = f a := rfl

theorem except_bind_error {ε α β : Type} (u : ε) (f : α → Except ε β) :
    ((Except.error u : Except ε α) >>= f) = .error u := rfl

theorem runEvents_nil (st : TracerState) : runEvents st [] = .ok st := rfl

theorem runEvents_cons (st : TracerState) (e : Event) (evs : List Event) :
    runEvents st (e :: evs) = tracerStep st e >>= fun st2 => runEvents st2 evs := rfl

theorem runEvents_append (st : TracerState) (a b : List Event) :
    runEvents st (a ++ b) = runEvents st a >>= fun st2 => runEvents st2 b := by
  induction a generalizing st with
  | nil => rfl
  | cons e t ih =>
    simp only [List.cons_append, runEvents_cons]
    cases h : tracerStep st e with
    | ok st2 => simp only [except_bind_ok]; exact ih st2
    | error u => simp only [except_bind_error]

theorem enterNames_append (a b : List Event) :
    enterNames (a ++ b) = enterNames a ++ enterNames b := by
  induction a with
  | nil => rfl
  | cons e t ih => cases e <;> simp [enterNames, ih]

/-! ### Single-step characterisations -/

theorem tracerStep_call (st : TracerState) (n file : String) (ps : List (String × PyVal))
    (ps2 : List (String × StoredVal))
    (hEn : st.enabled = true) (hIg : shouldIgnore st file n = false)
    (hDepth : st.call_stack.length ≤ st.max_depth) (hP : storeParams st ps = .ok ps2) :
    tracerStep st (.call n file ps) = .ok { st with
      call_stack := ⟨n, file, ps2, []⟩ :: st.call_stack,
      root := if st.call_stack.isEmpty then Option.none else st.root } := by
  simp [tracerStep, Event.fileName, Event.funcName, hEn, hIg, Nat.not_lt.mpr hDepth, hP,
    except_bind_ok]

theorem tracerStep_ret_pop (st : TracerState) (rn rf : String) (arg : PyVal) (rv : StoredVal)
    (f g : Frame) (rest : List Frame)
    (hEn : st.enabled = true) (hStack : st.call_stack = f :: g :: rest)
    (hIg : shouldIgnore st rf rn = false)
    (hDepth : st.call_stack.length ≤ st.max_depth) (hR : storeRet st arg = .ok rv) :
    tracerStep st (.ret rn rf arg) = .ok { st with
      call_stack :=
        { g with children := g.children ++ [Node.mk f.name f.file f.params (some rv) f.children] }
          :: rest } := by
  rw [hStack] at hDepth
  have hD2 : ¬ st.max_depth < rest.length + 1 + 1 := by
    simp only [List.length_cons] at hDepth
    omega
  simp [tracerStep, Event.fileName, Event.funcName, hEn, hIg, hStack, hD2, hR, except_bind_ok]

theorem tracerStep_ret_last (st : TracerState) (rn rf : String) (arg : PyVal) (rv : StoredVal)
    (f : Frame)
    (hEn : st.enabled = true) (hStack : st.call_stack = [f])
    (hIg : shouldIgnore st rf rn = false)
    (hDepth : st.call_stack.length ≤ st.max_depth) (hR : storeRet st arg = .ok rv) :
    tracerStep st (.ret rn rf arg) = .ok { st with
      call_stack := [],
      root := some (Node.mk f.name f.file f.params (some rv) f.children) } := by
  rw [hStack] at hDepth
  have hD2 : ¬ st.max_depth = 0 := by
    simp only [List.length_cons, List.length_nil] at hDepth
    omega
  simp [tracerStep, Event.fileName, Event.funcName, hEn, hIg, hStack, hD2, hR, except_bind_ok]

/-- Once the stack is deeper than `max_depth`, a single event changes
nothing (all three leading guards return the state unchanged, and the
depth guard fires for `call` and `return` alike). -/
theorem tracerStep_frozen (st : TracerState) (ev : Event)
    (h : st.max_depth < st.call_stack.length) : tracerStep st ev = .ok st := by
  unfold tracerStep
  split
  · rfl
  · split
    · rfl
    · simp [h]

/-- Once the stack is deeper than `max_depth`, a whole event sequence
changes nothing. -/
theorem runEvents_frozen (st : TracerState) (evs : List Event)
    (h : st.max_depth < st.call_stack.length) : runEvents st evs = .ok st := by
  induction evs with
  | nil => rfl
  | cons e t ih => rw [runEvents_cons, tracerStep_frozen st e h]; exact ih

/-! ### Structural lemmas on shapes, preorders and collapse -/

theorem nodeShapeL_append (a b : List Node) :
    nodeShapeL (a ++ b) = nodeShapeL a ++ nodeShapeL b := by
  induction a with
  | nil => rfl
  | cons c cs ih => simp [nodeShapeL, ih]

theorem preorderNamesL_append (a b : List Node) :
    preorderNamesL (a ++ b) = preorderNamesL a ++ preorderNamesL b := by
  induction a with
  | nil => rfl
  | cons c cs ih => simp [preorderNamesL, ih]

theorem shapeHeightL_append (a b : List Shape) :
    shapeHeightL (a ++ b) = max (shapeHeightL a) (shapeHeightL b) := by
  induction a with
  | nil => simp [shapeHeightL]
  | cons c cs ih => simp [shapeHeightL, ih, Nat.max_assoc]

theorem collapse_append (x : Node) (a b : List Frame) :
    collapse x (a ++ b) = collapse (collapse x a) b := by
  induction a generalizing x with
  | nil => rfl
  | cons g gs ih => simp [collapse, ih]

/-! ### Running a complete forest of calls above a frame

If the stack is non-empty and `body` is the complete trace of a
forest with shapes `ss` (none of its events filtered, values
formatting, and enough head-room below the depth cap), then running
`body` precisely appends the corresponding completed nodes to the top
frame's children and changes nothing else; their name-shapes are `ss`
and their combined preorder lists the `call` events in order. -/
theorem run_forest {body : List Event} {ss : List Shape} (hF : ForestTrace body ss) :
    ∀ (st : TracerState) (f : Frame) (rest : List Frame),
      st.enabled = true →
      st.call_stack = f :: rest →
      (∀ e ∈ body, evAdmitted st e) →
      rest.length + 1 + shapeHeightL ss ≤ st.max_depth →
      ∃ ns : List Node,
        runEvents st body =
          .ok { st with call_stack := { f with children := f.children ++ ns } :: rest } ∧
        nodeShapeL ns = ss ∧
        preorderNamesL ns = enterNames body := by
  induction hF with
  | nil =>
    intro st f rest hEn hStack hAdm hD
    refine ⟨[], ?_, rfl, rfl⟩
    have hf : ({ f with children := f.children ++ ([] : List Node) } : Frame) = f := by
      cases f; simp
    rw [runEvents_nil, hf, ← hStack]
  | cons n file ps rn rf rv body rest2 cs ss hBody hRest ihBody ihRest =>
    intro st f rest hEn hStack hAdm hD
    -- height bookkeeping
    have hms : shapeHeightL (Shape.mk n cs :: ss) =
        max (1 + shapeHeightL cs) (shapeHeightL ss) := by
      simp [shapeHeightL, shapeHeight]
    have hcs_le : 1 + shapeHeightL cs ≤ shapeHeightL (Shape.mk n cs :: ss) := by
      rw [hms]; exact Nat.le_max_left _ _
    have hss_le : shapeHeightL ss ≤ shapeHeightL (Shape.mk n cs :: ss) := by
      rw [hms]; exact Nat.le_max_right _ _
    have hLen : st.call_stack.length = rest.length + 1 := by rw [hStack]; rfl
    -- admitted events, distributed over the pieces
    have hAdmCall : evAdmitted st (.call n file ps) := by
      apply hAdm; simp
    have hAdmBody : ∀ e ∈ body, evAdmitted st e := by
      intro e he; apply hAdm; simp [he]
    have hAdmRet : evAdmitted st (.ret rn rf rv) := by
      apply hAdm; simp
    have hAdmRest : ∀ e ∈ rest2, evAdmitted st e := by
      intro e he; apply hAdm; simp [he]
    obtain ⟨hIgC, hFmtC⟩ := hAdmCall
    obtain ⟨ps2, hps2⟩ := except_map_unit_ok _ hFmtC
    obtain ⟨hIgR, hFmtR⟩ := hAdmRet
    obtain ⟨rv2, hrv2⟩ := except_map_unit_ok _ hFmtR
    -- step 1: the call pushes a fresh frame
    have hCall : tracerStep st (.call n file ps) = .ok
        { st with call_stack := (⟨n, file, ps2, []⟩ : Frame) :: f :: rest, root := st.root } := by
      have h0 := tracerStep_call st n file ps ps2 hEn hIgC (by omega) hps2
      rw [hStack] at h0
      simpa using h0
    -- step 2: the body forest completes under the fresh frame
    obtain ⟨ns, hRunBody, hShapeNs, hPreNs⟩ :=
      ihBody { st with call_stack := (⟨n, file, ps2, []⟩ : Frame) :: f :: rest, root := st.root }
        ⟨n, file, ps2, []⟩ (f :: rest) hEn rfl
        (fun e he => (evAdmitted_update st _ _ e).mpr (hAdmBody e he))
        (by simp only [List.length_cons]; omega)
    -- step 3: the matching return pops and closes the node under `f`
    have hRet : tracerStep
        { st with call_stack := (⟨n, file, ps2, ns⟩ : Frame) :: f :: rest, root := st.root }
        (.ret rn rf rv) = .ok
        { st with
          call_stack :=
            { f with children := f.children ++ [Node.mk n file ps2 (some rv2) ns] } :: rest,
          root := st.root } := by
      exact tracerStep_ret_pop _ rn rf rv rv2 ⟨n, file, ps2, ns⟩ f rest hEn rfl hIgR
        (by simp only [List.length_cons]; omega) hrv2
    -- step 4: the sibling forest completes after the pop
    obtain ⟨ns2, hRunRest, hShape2, hPre2⟩ :=
      ihRest { st with
          call_stack :=
            { f with children := f.children ++ [Node.mk n file ps2 (some rv2) ns] } :: rest,
          root := st.root }
        { f with children := f.children ++ [Node.mk n file ps2 (some rv2) ns] } rest hEn rfl
        (fun e he => (evAdmitted_update st _ _ e).mpr (hAdmRest e he))
        (by simp only [List.length_cons]; omega)
    have hRunBody2 : runEvents
        { st with call_stack := (⟨n, file, ps2, []⟩ : Frame) :: f :: rest, root := st.root } body
        = .ok
        { st with call_stack := (⟨n, file, ps2, ns⟩ : Frame) :: f :: rest, root := st.root } :=
      hRunBody
    have hRunRest2 : runEvents
        { st with
          call_stack :=
            { f with children := f.children ++ [Node.mk n file ps2 (some rv2) ns] } :: rest,
          root := st.root } rest2
        = .ok { st with
            call_stack :=
              { f with
                children := (f.children ++ [Node.mk n file ps2 (some rv2) ns]) ++ ns2 } :: rest,
            root := st.root } :=
      hRunRest
    have hsplit : (Event.call n file ps :: body ++ [Event.ret rn rf rv]) ++ rest2
        = Event.call n file ps :: (body ++ (Event.ret rn rf rv :: rest2)) := by
      simp
    refine ⟨Node.mk n file ps2 (some rv2) ns :: ns2, ?_, ?_, ?_⟩
    · -- the run splits as call ; body ; return ; rest2
      rw [hsplit, runEvents_cons, hCall, except_bind_ok, runEvents_append, hRunBody2,
        except_bind_ok, runEvents_cons, hRet, except_bind_ok, hRunRest2]
      simp [List.append_assoc]
    · simp only [nodeShapeL, nodeShape]
      rw [hShapeNs, hShape2]
    · rw [hsplit]
      simp only [preorderNamesL, preorderNames, enterNames, enterNames_append]
      rw [hPreNs, hPre2]
      simp

/-- Running the complete trace of a single call tree from an empty
stack: the completed node becomes the new `root` (whatever `root` held
before is overwritten). -/
theorem run_tree_top {evs : List Event} {s : Shape} (hT : ForestTrace evs [s]) :
    ∀ st : TracerState, st.enabled = true → st.call_stack = [] →
      (∀ e ∈ evs, evAdmitted st e) → shapeHeight s ≤ st.max_depth →
      ∃ n : Node,
        runEvents st evs = .ok { st with call_stack := [], root := some n } ∧
        nodeShape n = s ∧ preorderNames n = enterNames evs := by
  cases hT with
  | cons n file ps rn rf rv body rest2 cs ss hBody hRest =>
    cases hRest with
    | nil =>
      intro st hEn hStack hAdm hHt
      have hHt2 : 1 + shapeHeightL cs ≤ st.max_depth := by
        simpa [shapeHeight] using hHt
      have hLen : st.call_stack.length = 0 := by rw [hStack]; rfl
      obtain ⟨hIgC, hFmtC⟩ := hAdm (.call n file ps) (by simp)
      obtain ⟨ps2, hps2⟩ := except_map_unit_ok _ hFmtC
      obtain ⟨hIgR, hFmtR⟩ := hAdm (.ret rn rf rv) (by simp)
      obtain ⟨rv2, hrv2⟩ := except_map_unit_ok _ hFmtR
      have hAdmBody : ∀ e ∈ body, evAdmitted st e := by
        intro e he; apply hAdm; simp [he]
      have hCall : tracerStep st (.call n file ps) = .ok
          { st with call_stack := [(⟨n, file, ps2, []⟩ : Frame)], root := Option.none } := by
        have h0 := tracerStep_call st n file ps ps2 hEn hIgC (by omega) hps2
        rw [hStack] at h0
        simpa using h0
      obtain ⟨ns, hRunBody, hShapeNs, hPreNs⟩ :=
        run_forest hBody
          { st with call_stack := [(⟨n, file, ps2, []⟩ : Frame)], root := Option.none }
          ⟨n, file, ps2, []⟩ [] hEn rfl
          (fun e he => (evAdmitted_update st _ _ e).mpr (hAdmBody e he))
          (by simp only [List.length_nil]; omega)
      have hRunBody2 : runEvents
          { st with call_stack := [(⟨n, file, ps2, []⟩ : Frame)], root := Option.none } body
          = .ok
          { st with call_stack := [(⟨n, file, ps2, ns⟩ : Frame)], root := Option.none } :=
        hRunBody
      have hRet : tracerStep
          { st with call_stack := [(⟨n, file, ps2, ns⟩ : Frame)], root := Option.none }
          (.ret rn rf rv) = .ok
          { st with
            call_stack := [],
            root := some (Node.mk n file ps2 (some rv2) ns) } := by
        exact tracerStep_ret_last _ rn rf rv rv2 ⟨n, file, ps2, ns⟩ hEn rfl hIgR
          (by simp only [List.length_cons, List.length_nil]; omega) hrv2
      have hsplit : (Event.call n file ps :: body ++ [Event.ret rn rf rv]) ++ ([] : List Event)
          = Event.call n file ps :: (body ++ (Event.ret rn rf rv :: ([] : List Event))) := by
        simp
      refine ⟨Node.mk n file ps2 (some rv2) ns, ?_, ?_, ?_⟩
      · rw [hsplit, runEvents_cons, hCall, except_bind_ok, runEvents_append, hRunBody2,
          except_bind_ok, runEvents_cons, hRet, except_bind_ok, runEvents_nil]
      · simp only [nodeShape]
        rw [hShapeNs]
      · rw [hsplit]
        simp only [preorderNames, enterNames, enterNames_append]
        rw [hPreNs]
        simp [enterNames]

/-- Running an open trace (the top-level call never returns): the open
frames pile up on the stack; collapsing them yields a tree of the
trace's shape whose preorder lists the `call` events in order.  If the
starting stack was empty, the `root` field is left cleared (the live
tree is reached through the stack bottom). -/
theorem run_open {evs : List Event} {s : Shape} (hO : OpenTrace evs s) :
    ∀ st : TracerState, st.enabled = true → (∀ e ∈ evs, evAdmitted st e) →
      st.call_stack.length + shapeHeight s ≤ st.max_depth →
      ∃ (f : Frame) (fs : List Frame),
        runEvents st evs = .ok { st with
          call_stack := (f :: fs) ++ st.call_stack,
          root := if st.call_stack.isEmpty then Option.none else st.root } ∧
        nodeShape (collapse (closeFrame f) fs) = s ∧
        preorderNames (collapse (closeFrame f) fs) = enterNames evs := by
  induction hO with
  | last n file ps body cs hBody =>
    intro st hEn hAdm hD
    have hHt : shapeHeight (Shape.mk n cs) = 1 + shapeHeightL cs := rfl
    obtain ⟨hIgC, hFmtC⟩ := hAdm (.call n file ps) (by simp)
    obtain ⟨ps2, hps2⟩ := except_map_unit_ok _ hFmtC
    have hAdmBody : ∀ e ∈ body, evAdmitted st e := by
      intro e he; apply hAdm; simp [he]
    have hCall := tracerStep_call st n file ps ps2 hEn hIgC (by omega) hps2
    obtain ⟨ns, hRunBody, hShapeNs, hPreNs⟩ :=
      run_forest hBody
        { st with
          call_stack := (⟨n, file, ps2, []⟩ : Frame) :: st.call_stack,
          root := if st.call_stack.isEmpty then Option.none else st.root }
        ⟨n, file, ps2, []⟩ st.call_stack hEn rfl
        (fun e he => (evAdmitted_update st _ _ e).mpr (hAdmBody e he))
        (by simp only [List.length_cons]; omega)
    have hRunBody2 : runEvents
        { st with
          call_stack := (⟨n, file, ps2, []⟩ : Frame) :: st.call_stack,
          root := if st.call_stack.isEmpty then Option.none else st.root } body
        = .ok
        { st with
          call_stack := (⟨n, file, ps2, ns⟩ : Frame) :: st.call_stack,
          root := if st.call_stack.isEmpty then Option.none else st.root } :=
      hRunBody
    refine ⟨⟨n, file, ps2, ns⟩, [], ?_, ?_, ?_⟩
    · rw [runEvents_cons, hCall, except_bind_ok, hRunBody2]
      simp
    · simp only [collapse, closeFrame, nodeShape]
      rw [hShapeNs]
    · simp only [collapse, closeFrame, preorderNames, enterNames]
      rw [hPreNs]
  | step n file ps body deeper cs d hBody hDeep ihDeep =>
    intro st hEn hAdm hD
    have hHt : shapeHeight (Shape.mk n (cs ++ [d])) =
        1 + max (shapeHeightL cs) (max (shapeHeight d) 0) := by
      simp [shapeHeight, shapeHeightL_append, shapeHeightL]
    obtain ⟨hIgC, hFmtC⟩ := hAdm (.call n file ps) (by simp)
    obtain ⟨ps2, hps2⟩ := except_map_unit_ok _ hFmtC
    have hAdmBody : ∀ e ∈ body, evAdmitted st e := by
      intro e he; apply hAdm; simp [he]
    have hAdmDeep : ∀ e ∈ deeper, evAdmitted st e := by
      intro e he; apply hAdm; simp [he]
    have hcs_le : shapeHeightL cs ≤ max (shapeHeightL cs) (max (shapeHeight d) 0) :=
      Nat.le_max_left _ _
    have hd_le : shapeHeight d ≤ max (shapeHeightL cs) (max (shapeHeight d) 0) :=
      le_trans (Nat.le_max_left _ _) (Nat.le_max_right _ _)
    have hCall := tracerStep_call st n file ps ps2 hEn hIgC (by omega) hps2
    obtain ⟨ns, hRunBody, hShapeNs, hPreNs⟩ :=
      run_forest hBody
        { st with
          call_stack := (⟨n, file, ps2, []⟩ : Frame) :: st.call_stack,
          root := if st.call_stack.isEmpty then Option.none else st.root }
        ⟨n, file, ps2, []⟩ st.call_stack hEn rfl
        (fun e he => (evAdmitted_update st _ _ e).mpr (hAdmBody e he))
        (by simp only [List.length_cons]; omega)
    have hRunBody2 : runEvents
        { st with
          call_stack := (⟨n, file, ps2, []⟩ : Frame) :: st.call_stack,
          root := if st.call_stack.isEmpty then Option.none else st.root } body
        = .ok
        { st with
          call_stack := (⟨n, file, ps2, ns⟩ : Frame) :: st.call_stack,
          root := if st.call_stack.isEmpty then Option.none else st.root } :=
      hRunBody
    obtain ⟨fd, fds, hRunDeep, hShapeDeep, hPreDeep⟩ :=
      ihDeep
        { st with
          call_stack := (⟨n, file, ps2, ns⟩ : Frame) :: st.call_stack,
          root := if st.call_stack.isEmpty then Option.none else st.root }
        hEn
        (fun e he => (evAdmitted_update st _ _ e).mpr (hAdmDeep e he))
        (by simp only [List.length_cons]; omega)
    have hRunDeep2 : runEvents
        { st with
          call_stack := (⟨n, file, ps2, ns⟩ : Frame) :: st.call_stack,
          root := if st.call_stack.isEmpty then Option.none else st.root } deeper
        = .ok
        { st with
          call_stack := (fd :: fds) ++ (⟨n, file, ps2, ns⟩ : Frame) :: st.call_stack,
          root := if st.call_stack.isEmpty then Option.none else st.root } :=
      hRunDeep
    have hcoll : collapse (collapse (closeFrame fd) fds) [(⟨n, file, ps2, ns⟩ : Frame)] =
        Node.mk n file ps2 Option.none (ns ++ [collapse (closeFrame fd) fds]) := rfl
    refine ⟨fd, fds ++ [(⟨n, file, ps2, ns⟩ : Frame)], ?_, ?_, ?_⟩
    · rw [runEvents_cons, hCall, except_bind_ok, runEvents_append, hRunBody2,
        except_bind_ok, hRunDeep2]
      simp [List.append_assoc]
    · rw [collapse_append, hcoll]
      simp only [nodeShape, nodeShapeL_append, nodeShapeL]
      rw [hShapeNs, hShapeDeep]
    · rw [collapse_append, hcoll]
      simp only [preorderNames, preorderNamesL_append, preorderNamesL,
        enterNames, enterNames_append]
      rw [hPreNs, hPreDeep]
      simp

/-! ### Chains of nested, never-returning calls (the depth cap) -/

/-- Repeatedly pushing the same call grows the stack until it is one
deeper than `max_depth`, after which nothing moves: after `k` further
enters on a stack of `m` identical frames the stack holds
`min (m + k) (max_depth + 1)` frames. -/
theorem run_chain (n file : String) (ps : List (String × PyVal))
    (ps2 : List (String × StoredVal)) :
    ∀ (k : Nat) (st : TracerState) (m : Nat),
      st.enabled = true → shouldIgnore st file n = false →
      storeParams st ps = .ok ps2 →
      st.call_stack = List.replicate m (⟨n, file, ps2, []⟩ : Frame) →
      1 ≤ m → m ≤ st.max_depth + 1 →
      runEvents st (List.replicate k (.call n file ps)) = .ok
        { st with
          call_stack := List.replicate (min (m + k) (st.max_depth + 1))
            (⟨n, file, ps2, []⟩ : Frame),
          root := st.root } := by
  intro k
  induction k with
  | zero =>
    intro st m hEn hIg hP hStack hm1 hm2
    rw [List.replicate_zero, runEvents_nil]
    have hmin : min (m + 0) (st.max_depth + 1) = m := by omega
    rw [hmin, ← hStack]
  | succ k ih =>
    intro st m hEn hIg hP hStack hm1 hm2
    have hLen : st.call_stack.length = m := by rw [hStack]; simp
    by_cases hcap : m ≤ st.max_depth
    · -- still below the cap: this enter pushes
      have hCall : tracerStep st (.call n file ps) = .ok
          { st with
            call_stack := List.replicate (m + 1) (⟨n, file, ps2, []⟩ : Frame),
            root := st.root } := by
        have h0 := tracerStep_call st n file ps ps2 hEn hIg (by omega) hP
        rw [hStack] at h0
        cases m with
        | zero => omega
        | succ m0 => simpa [List.replicate_succ] using h0
      have hih := ih
        { st with
          call_stack := List.replicate (m + 1) (⟨n, file, ps2, []⟩ : Frame),
          root := st.root }
        (m + 1) hEn hIg hP rfl (by omega) (by simp; omega)
      rw [show List.replicate (k + 1) (Event.call n file ps)
          = Event.call n file ps :: List.replicate k (Event.call n file ps) from rfl,
        runEvents_cons, hCall, except_bind_ok, hih]
      have harith : min (m + 1 + k) (st.max_depth + 1) = min (m + (k + 1)) (st.max_depth + 1) := by
        omega
      simp only [harith]
    · -- the stack already exceeds the cap: everything is frozen
      have hm3 : m = st.max_depth + 1 := by omega
      rw [runEvents_frozen st _ (by omega)]
      have hmin : min (m + (k + 1)) (st.max_depth + 1) = m := by omega
      rw [hmin, ← hStack]

/-- Collapsing a chain of childless frames below a node adds one node
and one level of height per frame. -/
theorem collapse_replicate (n file : String) (ps2 : List (String × StoredVal)) :
    ∀ (j : Nat) (c : Node),
      countNodes (collapse c (List.replicate j (⟨n, file, ps2, []⟩ : Frame))) = countNodes c + j ∧
      nodeHeight (collapse c (List.replicate j (⟨n, file, ps2, []⟩ : Frame))) = nodeHeight c + j := by
  intro j
  induction j with
  | zero => intro c; simp [collapse]
  | succ j ih =>
    intro c
    rw [List.replicate_succ]
    simp only [collapse]
    have h := ih (Node.mk n file ps2 Option.none ([] ++ [c]))
    constructor
    · rw [h.1]
      simp [countNodes, countNodesL]
      omega
    · rw [h.2]
      simp [nodeHeight, nodeHeightL]
      omega

/-! ### Length of a string repr -/

theorem pyCharEsc_length (q c : Char) : 1 ≤ (pyCharEsc q c).length := by
  unfold pyCharEsc
  split_ifs <;> simp

theorem flatMap_esc_length (q : Char) (l : List Char) :
    l.length ≤ (l.flatMap (pyCharEsc q)).length := by
  induction l with
  | nil => simp
  | cons c t ih =>
    rw [List.flatMap_cons, List.length_append, List.length_cons]
    have := pyCharEsc_length q c
    omega

theorem except_pure_inj {ε α : Type} {a b : α} (h : (pure a : Except ε α) = .ok b) : a = b := by
  have h2 : (Except.ok a : Except ε α) = .ok b := h
  simpa using h2

theorem except_ok_inj {ε α : Type} {a b : α} (h : (Except.ok a : Except ε α) = .ok b) :
    a = b := by
  simpa using h

/-- A Python string's repr is at least two characters longer than the
string (the two quotes, plus escapes only lengthen it). -/
theorem pyReprOfStr_length (s : String) : strLen s + 2 ≤ strLen (pyReprOfStr s) := by
  have h := flatMap_esc_length (pyReprQuote s) s.data
  show s.data.length + 2 ≤
    (pyReprQuote s :: (s.data.flatMap (pyCharEsc (pyReprQuote s))) ++ [pyReprQuote s]).length
  simp only [List.length_cons, List.length_append]
  omega

/-! ### Depth bound of the structured serializer -/

theorem except_ok_of_bind {ε α β : Type} {x : Except ε α} {f : α → Except ε β} {b : β}
    (h : (x >>= f) = .ok b) : ∃ a, x = .ok a ∧ f a = .ok b := by
  cases x with
  | ok a => exact ⟨a, rfl, by simpa [except_bind_ok] using h⟩
  | error e => rw [except_bind_error] at h; simp at h

/-- Whatever the serializer produces with fuel `k` has depth at most
`k`: depth `toSerializable v d m ≤ m + 1 - d` for every value. -/
theorem sdepth_toSerializableFuel :
    ∀ (k : Nat) (v : PyVal) (s : SNode), toSerializableFuel k v = .ok s → sdepth s ≤ k := by
  intro k
  induction k with
  | zero =>
    intro v s h
    have h2 : SNode.maxDepth = s := by simpa [toSerializableFuel] using h
    subst h2
    simp [sdepth]
  | succ k ih =>
    have hlist : ∀ (xs : List PyVal) (cs : List SNode),
        List.mapM (fun x => toSerializableFuel k x) xs = .ok cs → sdepthL cs ≤ k := by
      intro xs
      induction xs with
      | nil =>
        intro cs h
        rw [List.mapM_nil] at h
        have h2 : ([] : List SNode) = cs := except_pure_inj h
        subst h2
        simp [sdepthL]
      | cons x t iht =>
        intro cs h
        rw [List.mapM_cons] at h
        obtain ⟨sx, hsx, h2⟩ := except_ok_of_bind h
        obtain ⟨ts, hts, h3⟩ := except_ok_of_bind h2
        have h4 : sx :: ts = cs := except_pure_inj h3
        subst h4
        simp only [sdepthL]
        exact max_le (ih x sx hsx) (iht ts hts)
    have hentries : ∀ (es : List (PyVal × PyVal)) (vs : List (String × SNode)),
        List.mapM (fun kv => do
          let ks ← pyStr kv.1
          let sv ← toSerializableFuel k kv.2
          Except.ok (ks, sv)) es = .ok vs → sdepthE vs ≤ k := by
      intro es
      induction es with
      | nil =>
        intro vs h
        rw [List.mapM_nil] at h
        have h2 : ([] : List (String × SNode)) = vs := except_pure_inj h
        subst h2
        simp [sdepthE]
      | cons kv t iht =>
        intro vs h
        rw [List.mapM_cons] at h
        obtain ⟨y, hy, h2⟩ := except_ok_of_bind h
        obtain ⟨ts, hts, h3⟩ := except_ok_of_bind h2
        obtain ⟨ks, hks, h4⟩ := except_ok_of_bind hy
        obtain ⟨sv, hsv, h5⟩ := except_ok_of_bind h4
        have h6 : y = (ks, sv) := by simpa using h5.symm
        subst h6
        have h7 : (ks, sv) :: ts = vs := except_pure_inj h3
        subst h7
        simp only [sdepthE]
        exact max_le (ih kv.2 sv hsv) (iht ts hts)
    have hattrs : ∀ (as2 : List (String × PyVal)) (vs : List (String × SNode)),
        List.mapM (fun a => do
          let sv ← toSerializableFuel k a.2
          Except.ok (a.1, sv)) as2 = .ok vs → sdepthE vs ≤ k := by
      intro as2
      induction as2 with
      | nil =>
        intro vs h
        rw [List.mapM_nil] at h
        have h2 : ([] : List (String × SNode)) = vs := except_pure_inj h
        subst h2
        simp [sdepthE]
      | cons a t iht =>
        intro vs h
        rw [List.mapM_cons] at h
        obtain ⟨y, hy, h2⟩ := except_ok_of_bind h
        obtain ⟨ts, hts, h3⟩ := except_ok_of_bind h2
        obtain ⟨sv, hsv, h4⟩ := except_ok_of_bind hy
        have h5 : y = (a.1, sv) := by simpa using h4.symm
        subst h5
        have h6 : (a.1, sv) :: ts = vs := except_pure_inj h3
        subst h6
        simp only [sdepthE]
        exact max_le (ih a.2 sv hsv) (iht ts hts)
    intro v s h
    cases v with
    | none =>
      have h2 : SNode.null = s := by simpa [toSerializableFuel] using h
      subst h2; simp [sdepth]
    | bool b =>
      have h2 : SNode.boolean b = s := by simpa [toSerializableFuel] using h
      subst h2; simp [sdepth]
    | int n =>
      have h2 : SNode.number n = s := by simpa [toSerializableFuel] using h
      subst h2; simp [sdepth]
    | str s0 =>
      have h2 : SNode.string s0 = s := by simpa [toSerializableFuel] using h
      subst h2; simp [sdepth]
    | list xs =>
      simp only [toSerializableFuel] at h
      obtain ⟨cs, hcs, h2⟩ := except_ok_of_bind h
      have h3 : SNode.array xs.length cs = s := by simpa using h2
      subst h3
      simp only [sdepth]
      have := hlist xs cs hcs
      omega
    | tuple xs =>
      simp only [toSerializableFuel] at h
      obtain ⟨cs, hcs, h2⟩ := except_ok_of_bind h
      have h3 : SNode.tuple xs.length cs = s := by simpa using h2
      subst h3
      simp only [sdepth]
      have := hlist xs cs hcs
      omega
    | dict es =>
      simp only [toSerializableFuel] at h
      obtain ⟨vs, hvs, h2⟩ := except_ok_of_bind h
      have h3 : SNode.object (es.map Prod.fst) vs = s := by simpa using h2
      subst h3
      simp only [sdepth]
      have := hentries es vs hvs
      omega
    | set xs =>
      simp only [toSerializableFuel] at h
      obtain ⟨cs, hcs, h2⟩ := except_ok_of_bind h
      have h3 : SNode.set xs.length cs = s := by simpa using h2
      subst h3
      simp only [sdepth]
      have := hlist xs cs hcs
      omega
    | inst cls attrs dfltRepr =>
      simp only [toSerializableFuel] at h
      cases hm : List.mapM (fun a => do
          let sv ← toSerializableFuel k a.2
          Except.ok (a.1, sv)) (attrs.filter (fun a => !(strStartsWith a.1 "_"))) with
      | ok es =>
        rw [hm] at h
        have h3 : SNode.custom cls es = s := by simpa using h
        subst h3
        simp only [sdepth]
        have := hattrs _ es hm
        omega
      | error u =>
        rw [hm] at h
        have h3 : SNode.unknown dfltRepr = s := by simpa using h
        subst h3
        simp [sdepth]
    | fallbackV r s0 =>
      have h2 : SNode.unknown s0 = s := by simpa [toSerializableFuel] using h
      subst h2; simp [sdepth]
    | badIntro r s0 =>
      have h2 : SNode.unknown s0 = s := by simpa [toSerializableFuel] using h
      subst h2; simp [sdepth]
    | hostile => simp [toSerializableFuel] at h

/-! ### Toggle sequences (`atexit` registration accounting) -/

inductive ToggleOp where
  | saveOp (filename : String)
  | interactiveOp (filename : String)
  | expandOp (depth : Nat)
  | includeStdlibOp

def applyToggle (st : TracerState) : ToggleOp → TracerState
  | .saveOp fn => save st fn
  | .interactiveOp fn => interactive st fn
  | .expandOp d => expand st d
  | .includeStdlibOp => include_stdlib st

def applyToggles (st : TracerState) : List ToggleOp → TracerState
  | [] => st
  | op :: ops => applyToggles (applyToggle st op) ops

/-- Which toggles call `_register_auto_end` in the source (`save`,
`interactive`, `expand`; `include_stdlib` does not). -/
def registersHook : ToggleOp → Bool
  | .saveOp _ => true
  | .interactiveOp _ => true
  | .expandOp _ => true
  | .includeStdlibOp => false

theorem registerAutoEnd_fields (st : TracerState) :
    (registerAutoEnd st).auto_end_registered = true ∧
    (registerAutoEnd st).atexit_count =
      (if st.auto_end_registered then st.atexit_count else st.atexit_count + 1) := by
  unfold registerAutoEnd
  by_cases h : st.auto_end_registered = false
  · simp [h]
  · simp at h
    simp [h]

theorem start_atexit_fields (st : TracerState) :
    (start st).auto_end_registered = st.auto_end_registered ∧
    (start st).atexit_count = st.atexit_count := by
  unfold start
  split <;> simp

theorem applyToggle_atexit (st : TracerState) (op : ToggleOp) :
    (applyToggle st op).auto_end_registered = (st.auto_end_registered || registersHook op) ∧
    (applyToggle st op).atexit_count =
      (if st.auto_end_registered || registersHook op then
        (if st.auto_end_registered then st.atexit_count else st.atexit_count + 1)
       else st.atexit_count) := by
  cases op with
  | saveOp fn =>
    unfold applyToggle save
    rcases start_atexit_fields (registerAutoEnd { st with save_file := some fn }) with ⟨h1, h2⟩
    rcases registerAutoEnd_fields { st with save_file := some fn } with ⟨h3, h4⟩
    rw [h1, h2, h3, h4]
    simp [registersHook]
  | interactiveOp fn =>
    unfold applyToggle interactive
    rcases start_atexit_fields
      (registerAutoEnd { st with interactive_html := true, save_file := some fn }) with ⟨h1, h2⟩
    rcases registerAutoEnd_fields
      { st with interactive_html := true, save_file := some fn } with ⟨h3, h4⟩
    rw [h1, h2, h3, h4]
    simp [registersHook]
  | expandOp d =>
    unfold applyToggle expand
    rcases start_atexit_fields
      (registerAutoEnd { st with expand_objects := true, expand_depth := d }) with ⟨h1, h2⟩
    rcases registerAutoEnd_fields
      { st with expand_objects := true, expand_depth := d } with ⟨h3, h4⟩
    rw [h1, h2, h3, h4]
    simp [registersHook]
  | includeStdlibOp =>
    unfold applyToggle include_stdlib
    simp only [registersHook, Bool.or_false]
    refine ⟨trivial, ?_⟩
    by_cases h : st.auto_end_registered = true <;> simp [h]

/-- Across any toggle sequence, `atexit.register` is called exactly
once if some hook-registering toggle appears, never otherwise. -/
theorem applyToggles_atexit :
    ∀ (ops : List ToggleOp) (st : TracerState),
      st.atexit_count = (if st.auto_end_registered then 1 else 0) →
      (applyToggles st ops).auto_end_registered
          = (st.auto_end_registered || ops.any registersHook) ∧
      (applyToggles st ops).atexit_count
          = (if st.auto_end_registered || ops.any registersHook then 1 else 0) := by
  intro ops
  induction ops with
  | nil =>
    intro st hInv
    simp [applyToggles, hInv]
  | cons op rest ih =>
    intro st hInv
    rcases applyToggle_atexit st op with ⟨h1, h2⟩
    have hInv2 : (applyToggle st op).atexit_count =
        (if (applyToggle st op).auto_end_registered then 1 else 0) := by
      rw [h1, h2]
      by_cases ha : st.auto_end_registered <;> by_cases hb : registersHook op <;>
        simp [ha, hb, hInv]
    rcases ih (applyToggle st op) hInv2 with ⟨h3, h4⟩
    constructor
    · rw [show applyToggles st (op :: rest) = applyToggles (applyToggle st op) rest from rfl,
        h3, h1]
      simp [List.any_cons, Bool.or_assoc]
    · rw [show applyToggles st (op :: rest) = applyToggles (applyToggle st op) rest from rfl,
        h4, h1]
      simp [List.any_cons, Bool.or_assoc]

/-! ### Concrete session fixtures used by witnesses and counterexamples -/

/-- A stand-in for the environment value `os.path.dirname(os.__file__)`. -/
def stdlibPathC : String := "/usr/lib/python3.12"

/-- A user-code file location (matches no exclude pattern, not under
the standard library). -/
def appFile : String := "/home/user/app.py"

/-- A fresh tracer right after `start()`. -/
def activeState : TracerState := start (initState stdlibPathC)

/-- Two complete top-level calls in sequence: `a` returns, then `b`. -/
def evsTwoTop : List Event :=
  [.call "a" appFile [], .ret "a" appFile (.int 1),
   .call "b" appFile [], .ret "b" appFile (.int 2)]

/-- The spec's nested scenario: `outer(x=1)` calls `inner(y=2)`, both
return `3`. -/
def evsNested : List Event :=
  [.call "outer" appFile [("x", .int 1)], .call "inner" appFile [("y", .int 2)],
   .ret "inner" appFile (.int 3), .ret "outer" appFile (.int 3)]

/-- An active session with `max_depth` lowered to 2. -/
def cappedState : TracerState := { activeState with max_depth := 2 }

/-- Seven nested enter events with no matching exits. -/
def chainSeven : List Event := List.replicate 7 (.call "f" appFile [])

/-- A session whose stack is already deeper than its depth cap. -/
def frozenState : TracerState :=
  { activeState with
    max_depth := 1,
    call_stack := List.replicate 2 (⟨"f", appFile, [], []⟩ : Frame) }

/-- A string of 51 `a` characters (one longer than `max_param_len`). -/
def longA : String := String.mk (List.replicate 51 'a')

/-- A nested list `[[...[0]...]]` of the given depth. -/
def nestedList : Nat → PyVal
  | 0 => .int 0
  | k + 1 => .list [nestedList k]

/-! ### Claims -/

/-- C10: the depth guard is checked before event dispatch for every
event kind, so once the call stack is deeper than `max_depth`, every
subsequent event — exit as well as enter — leaves the assembler state
completely unchanged (no push, no pop, no return value) for the
remainder of the session. -/
theorem c10_depth_freeze (st : TracerState) (evs : List Event)
    (h : st.max_depth < st.call_stack.length) :
    (∀ e : Event, tracerStep st e = .ok st) ∧ runEvents st evs = .ok st :=
  ⟨fun e => tracerStep_frozen st e h, runEvents_frozen st evs h⟩

/-- Witness for C10 at a concrete over-deep session processing an
exit and an enter. -/
theorem c10_depth_freeze_witness :
    frozenState.max_depth < frozenState.call_stack.length ∧
    runEvents frozenState [.ret "f" appFile (.int 0), .call "g" appFile []]
      = .ok frozenState :=
  ⟨by decide, (c10_depth_freeze frozenState [.ret "f" appFile (.int 0), .call "g" appFile []]
      (by decide)).2⟩

/-- C8: `end()` is idempotent: a second call in a row is a no-op that
produces no further export output, and `end()` while already idle is a
no-op, not a failure; one active `end()` produces exactly one export
batch. -/
theorem c8_end_idempotent (st : TracerState) :
    endTracing (endTracing st) = endTracing st ∧
    (st.enabled = false → endTracing st = st) ∧
    (st.enabled = true →
      (endTracing st).enabled = false ∧
      (endTracing st).exports = st.exports ++ exportBatch st ∧
      (endTracing (endTracing st)).exports = (endTracing st).exports) := by
  by_cases h : st.enabled = false
  · have h1 : endTracing st = st := by unfold endTracing; rw [if_pos h]
    refine ⟨by rw [h1, h1], fun _ => h1, fun htrue => absurd htrue (by simp [h])⟩
  · have htrue : st.enabled = true := by simpa using h
    have h1 : endTracing st =
        { st with
          enabled := false,
          exports := st.exports ++ exportBatch st,
          expand_objects := false,
          interactive_html := false,
          trace_stdlib := false } := by
      unfold endTracing; rw [if_neg (by simp [htrue])]
    have h2 : endTracing (endTracing st) = endTracing st := by
      rw [h1]
      simp [endTracing]
    exact ⟨h2, fun hfalse => absurd hfalse (by simp [htrue]),
      fun _ => ⟨by rw [h1], by rw [h1], by rw [h2]⟩⟩

/-- Witness for C8 at a concrete active session. -/
theorem c8_end_idempotent_witness :
    endTracing (endTracing activeState) = endTracing activeState ∧
    (endTracing activeState).exports = activeState.exports ++ exportBatch activeState :=
  ⟨(c8_end_idempotent activeState).1,
   ((c8_end_idempotent activeState).2.2 (by decide)).2.1⟩

/-- C6 counterexample: a value whose default representation raises
(e.g. a `__slots__` object with a raising `__repr__`/`__str__`) makes
both formatter modes propagate the exception — the unguarded final
fallbacks call `repr(obj)` / `str(obj)` directly — so the claim that
both modes never propagate for every input value is false. -/
theorem c6_counterexample :
    formatValue false 2 50 PyVal.hostile Option.none 0 = .error () ∧
    expandObject 2 PyVal.hostile 0 = .error () ∧
    toSerializable PyVal.hostile 0 10 = .error () :=
  ⟨rfl, rfl, rfl⟩

/-- C6 (amended): introspection failures degrade to the string
fallback and never propagate: a value whose `__dict__` access raises
(and likewise a value without `__dict__`) renders in display mode as
its repr clipped to 200 characters and in structured mode as the
`unknown` node with its `str`; only a raising default representation
itself escapes. -/
theorem c6_introspection_fallback (ed d m : Nat) (r s : String) :
    expandObject ed (.badIntro r s) d =
      .ok (if 200 < strLen r then strTake r 200 ++ "..." else r) ∧
    expandObject ed (.fallbackV r s) d =
      .ok (if 200 < strLen r then strTake r 200 ++ "..." else r) ∧
    (d ≤ m → toSerializable (.badIntro r s) d m = .ok (.unknown s)) ∧
    (d ≤ m → toSerializable (.fallbackV r s) d m = .ok (.unknown s)) := by
  refine ⟨?_, ?_, ?_, ?_⟩
  · unfold expandObject
    cases ed - 1 - d with
    | zero => rfl
    | succ k => rfl
  · unfold expandObject
    cases ed - 1 - d with
    | zero => rfl
    | succ k => rfl
  · intro hdm
    unfold toSerializable
    rw [show m + 1 - d = (m - d) + 1 from by omega]
    rfl
  · intro hdm
    unfold toSerializable
    rw [show m + 1 - d = (m - d) + 1 from by omega]
    rfl

/-- Witness for C6 (amended) at concrete depths and a concrete value. -/
theorem c6_introspection_fallback_witness :
    (0 : Nat) ≤ 10 ∧
    expandObject 2 (.badIntro "R" "S") 0 = .ok "R" ∧
    toSerializable (.badIntro "R" "S") 0 10 = .ok (.unknown "S") := by
  refine ⟨by decide, ?_, (c6_introspection_fallback 2 0 10 "R" "S").2.2.1 (by decide)⟩
  have h := (c6_introspection_fallback 2 0 10 "R" "S").1
  simpa using h

/-- C5 counterexample: a 12-deep nested list serializes (with the
default `max_depth = 10`) to a tagged tree of nesting depth 11: the
guard `current_depth > max_depth` still recurses at depth 10 and
places the marker at depth 11, so depth does exceed `maxDepth`. -/
theorem c5_counterexample :
    (toSerializable (nestedList 12) 0 10).map sdepth = .ok 11 ∧ 10 < 11 :=
  ⟨rfl, by decide⟩

/-- C5 (amended): the structured serializer's output depth never
exceeds `maxDepth + 1` (content occupies depths 0..maxDepth and the
depth-exceeded marker sits at maxDepth + 1), and recursion hard-stops
as soon as `current_depth` exceeds `max_depth`, returning the marker. -/
theorem c5_depth_bound :
    (∀ (v : PyVal) (s : SNode), toSerializable v 0 10 = .ok s → sdepth s ≤ 10 + 1) ∧
    (∀ (v : PyVal) (d m : Nat), m < d → toSerializable v d m = .ok SNode.maxDepth) := by
  constructor
  · intro v s h
    exact sdepth_toSerializableFuel 11 v s h
  · intro v d m hlt
    unfold toSerializable
    rw [show m + 1 - d = 0 from by omega]
    rfl

/-- Witness for C5 (amended) at the 12-deep nested list and a
concrete beyond-cap call. -/
theorem c5_depth_bound_witness :
    (toSerializable (nestedList 12) 0 10 = .ok
      ((List.range 11).foldl (fun acc _ => SNode.array 1 [acc]) SNode.maxDepth)) ∧
    sdepth ((List.range 11).foldl (fun acc _ => SNode.array 1 [acc]) SNode.maxDepth) ≤ 10 + 1 ∧
    toSerializable (.int 0) 11 10 = .ok SNode.maxDepth := by
  refine ⟨rfl, (c5_depth_bound).1 (nestedList 12) _ rfl, (c5_depth_bound).2 (.int 0) 11 10 (by decide)⟩

/-- C4 counterexample: for a 51-character string with the default
`max_param_len = 50`, `_format_value` returns the first 50 characters
of `repr(value)` — which begins with the quote `repr` adds — plus the
ellipsis, so its first 50 characters do not equal the source string's
first 50 characters. -/
theorem c4_counterexample :
    formatValue false 2 50 (.str longA) Option.none 0
      = .ok (String.mk (squote :: List.replicate 49 'a') ++ "...") ∧
    strLen (String.mk (squote :: List.replicate 49 'a') ++ "...") = 50 + 3 ∧
    (String.mk (squote :: List.replicate 49 'a') ++ "...").data.take 50 ≠ longA.data.take 50 := by
  refine ⟨rfl, rfl, ?_⟩
  decide

/-- C4 (amended): in display mode with `expand_objects` off, for a
string value longer than `max_param_len` the formatter returns a
string of length exactly `max_param_len + 3` (truncated content plus
the three-character ellipsis), and its first `max_param_len`
characters equal the first `max_param_len` characters of the value's
`repr` (the display representation, which adds quotes and escapes) —
not of the raw string itself. -/
theorem c4_truncation (ed mpl : Nat) (s : String) (h : mpl < strLen s) :
    ∃ r : String, formatValue false ed mpl (.str s) Option.none 0 = .ok r ∧
      strLen r = mpl + 3 ∧ r.data.take mpl = (pyReprOfStr s).data.take mpl := by
  have hlen : mpl < strLen (pyReprOfStr s) := by
    have := pyReprOfStr_length s
    omega
  have hlen2 : mpl < (pyReprOfStr s).data.length := hlen
  refine ⟨strTake (pyReprOfStr s) mpl ++ "...", ?_, ?_, ?_⟩
  · unfold formatValue
    rw [if_neg (by simp)]
    rw [show pyRepr (.str s) = .ok (pyReprOfStr s) from rfl, except_bind_ok]
    have hml : (Option.none : Option Nat).getD mpl = mpl := rfl
    rw [hml, if_pos hlen]
  · show ((pyReprOfStr s).data.take mpl ++ ['.', '.', '.']).length = mpl + 3
    rw [List.length_append, List.length_take, Nat.min_eq_left (Nat.le_of_lt hlen2)]
    rfl
  · show ((pyReprOfStr s).data.take mpl ++ ['.', '.', '.']).take mpl
      = (pyReprOfStr s).data.take mpl
    rw [List.take_append_of_le_length (by rw [List.length_take]; omega)]
    rw [List.take_take]
    simp

/-- Witness for C4 (amended) at the 51-character string and the
default configuration. -/
theorem c4_truncation_witness :
    (50 : Nat) < strLen longA ∧
    ∃ r : String, formatValue false 2 50 (.str longA) Option.none 0 = .ok r ∧
      strLen r = 50 + 3 ∧ r.data.take 50 = (pyReprOfStr longA).data.take 50 :=
  ⟨by decide, c4_truncation 2 50 longA (by decide)⟩

/-- C7 counterexample: `include_stdlib` only sets the stdlib flag —
it registers no process-exit hook (and does not call `start()`),
unlike `save`, `interactive` and `expand`, so the claim that each of
the four toggles registers the hook is false. -/
theorem c7_counterexample :
    (include_stdlib (initState stdlibPathC)).auto_end_registered = false ∧
    (include_stdlib (initState stdlibPathC)).atexit_count = 0 ∧
    (include_stdlib (initState stdlibPathC)).enabled = false ∧
    (save (initState stdlibPathC) "call_trace.txt").atexit_count = 1 :=
  ⟨rfl, rfl, rfl, rfl⟩

/-- C7 (amended): `save`, `interactive` and `expand` each mutate the
configuration, call `start()` when the session is not already active,
and register the automatic process-exit hook; `include_stdlib` only
sets its flag and returns the session, registering nothing and not
starting; across any sequence of toggles the hook is registered
exactly once if any of the three registering toggles appears, never
otherwise. -/
theorem c7_toggles (st : TracerState) (fn fn2 : String) (d : Nat) (p : String)
    (ops : List ToggleOp) :
    ((save st fn).save_file = some fn ∧ (save st fn).enabled = true ∧
      (save st fn).auto_end_registered = true) ∧
    ((interactive st fn2).interactive_html = true ∧ (interactive st fn2).save_file = some fn2 ∧
      (interactive st fn2).enabled = true ∧ (interactive st fn2).auto_end_registered = true) ∧
    ((expand st d).expand_objects = true ∧ (expand st d).expand_depth = d ∧
      (expand st d).enabled = true ∧ (expand st d).auto_end_registered = true) ∧
    include_stdlib st = { st with trace_stdlib := true } ∧
    (st.enabled = true → (save st fn).call_stack = st.call_stack ∧ (save st fn).root = st.root) ∧
    (st.enabled = false → (save st fn).call_stack = [] ∧ (save st fn).root = Option.none) ∧
    (applyToggles (initState p) ops).atexit_count =
      (if ops.any registersHook then 1 else 0) := by
  refine ⟨?_, ?_, ?_, rfl, ?_, ?_, ?_⟩
  · unfold save start registerAutoEnd
    split_ifs <;> simp_all
  · unfold interactive start registerAutoEnd
    split_ifs <;> simp_all
  · unfold expand start registerAutoEnd
    split_ifs <;> simp_all
  · intro hEn
    unfold save start registerAutoEnd
    split_ifs <;> simp_all
  · intro hEn
    unfold save start registerAutoEnd
    split_ifs <;> simp_all
  · have h := (applyToggles_atexit ops (initState p) (by rfl)).2
    simpa [initState] using h

/-- Witness for C7 (amended) at a fresh tracer, concrete targets and
a concrete toggle sequence. -/
theorem c7_toggles_witness :
    (save (initState stdlibPathC) "t.txt").enabled = true ∧
    (save (initState stdlibPathC) "t.txt").call_stack = [] ∧
    (applyToggles (initState stdlibPathC)
      [.includeStdlibOp, .saveOp "t.txt", .expandOp 3]).atexit_count = 1 := by
  have h := c7_toggles (initState stdlibPathC) "t.txt" "u.html" 3 stdlibPathC
    [.includeStdlibOp, .saveOp "t.txt", .expandOp 3]
  refine ⟨h.1.2.1, (h.2.2.2.2.2.1 (by decide)).1, ?_⟩
  have h2 := h.2.2.2.2.2.2
  simpa using h2

set_option maxRecDepth 80000 in
/-- C9 counterexample: on the empty tree the interactive document
contains no "no calls traced" indication in any casing the code ever
emits — the template has no such text and the payload is `null` — so
the claim's indication clause is false. -/
theorem c9_counterexample :
    (generateHtmlLines Option.none).map (fun doc => docContains doc "No calls traced")
      = .ok false ∧
    (generateHtmlLines Option.none).map (fun doc => docContains doc "no calls traced")
      = .ok false := by
  constructor
  · rfl
  · rfl

set_option maxRecDepth 80000 in
/-- C9 (amended): for the empty tree the interactive exporter
succeeds without a structural error — `_node_to_dict(None)` is `None`,
the payload is the JSON text `null`, and the document is the fixed
template around it — but it renders an empty call tree with no
explicit "no calls traced" text; that indication exists only in the
console/file exporters (`print_tree` / `_write_tree`). -/
theorem c9_empty_tree :
    nodeToDictOpt Option.none = .ok Json.null ∧
    generateHtmlPayload Option.none = .ok "null" ∧
    generateHtmlLines Option.none =
      .ok (htmlPrefixLines ++ "        const traceData = null;" :: htmlSuffixLines) ∧
    (generateHtmlLines Option.none).map (fun doc => docContains doc "No calls traced.")
      = .ok false ∧
    writeToFileText Option.none = .ok "CALL TRACE:\n\nNo calls traced.\n" ∧
    printTreeText Option.none = .ok "\nCALL TRACE:\n\nNo calls traced.\n" := by
  refine ⟨rfl, rfl, rfl, ?_, rfl, rfl⟩
  rfl

/-- C1 counterexample: after `a` enters and returns (root = `a`), a
second top-level enter of `b` while the stack is empty reassigns
`root` — the exported tree is `b`, not the first call `a` — so
`root` is not set exactly once, and the first tree is lost rather
than kept. -/
theorem c1_counterexample :
    (runEvents activeState (evsTwoTop.take 2)).map (fun st2 => (exportedRoot st2).map Node.name)
      = .ok (some "a") ∧
    (runEvents activeState evsTwoTop).map (fun st2 => (exportedRoot st2).map Node.name)
      = .ok (some "b") ∧
    some "b" ≠ some "a" := by
  refine ⟨rfl, rfl, ?_⟩
  decide

/-- C1 (amended): every enter event arriving while the stack is empty
assigns `root` to the new call's node, overwriting any previously
completed root, so the *last* top-level call tree is the one exported:
running two complete top-level call traces in sequence leaves the
second tree as the exported root. -/
theorem c1_root_overwritten {evs1 evs2 : List Event} {s1 s2 : Shape}
    (h1 : ForestTrace evs1 [s1]) (h2 : ForestTrace evs2 [s2])
    (st : TracerState) (hEn : st.enabled = true) (hStack : st.call_stack = [])
    (hAdm : ∀ e ∈ evs1 ++ evs2, evAdmitted st e)
    (hH1 : shapeHeight s1 ≤ st.max_depth) (hH2 : shapeHeight s2 ≤ st.max_depth) :
    ∃ n2 : Node,
      runEvents st (evs1 ++ evs2) = .ok { st with call_stack := [], root := some n2 } ∧
      nodeShape n2 = s2 ∧ (exportedRoot { st with call_stack := [], root := some n2 }).map
        nodeShape = some s2 := by
  obtain ⟨n1, hRun1, _, _⟩ := run_tree_top h1 st hEn hStack
    (fun e he => hAdm e (by simp [he])) hH1
  obtain ⟨n2, hRun2, hShape2, _⟩ := run_tree_top h2
    { st with call_stack := [], root := some n1 } hEn rfl
    (fun e he => (evAdmitted_update st _ _ e).mpr (hAdm e (by simp [he]))) hH2
  have hRun2b : runEvents { st with call_stack := [], root := some n1 } evs2
      = .ok { st with call_stack := [], root := some n2 } := hRun2
  refine ⟨n2, ?_, hShape2, ?_⟩
  · rw [runEvents_append, hRun1, except_bind_ok, hRun2b]
  · show (some n2).map nodeShape = some s2
    simp [hShape2]

/-- Witness for C1 (amended): the two-top-level scenario; the second
tree `b` ends up as the exported root. -/
theorem c1_root_overwritten_witness :
    ∃ n2 : Node,
      runEvents activeState evsTwoTop
        = .ok { activeState with call_stack := [], root := some n2 } ∧
      nodeShape n2 = Shape.mk "b" [] ∧
      (exportedRoot { activeState with call_stack := [], root := some n2 }).map
        nodeShape = some (Shape.mk "b" []) := by
  have hA : ForestTrace [Event.call "a" appFile [], Event.ret "a" appFile (.int 1)]
      [Shape.mk "a" []] :=
    ForestTrace.cons "a" appFile [] "a" appFile (.int 1) [] [] [] []
      ForestTrace.nil ForestTrace.nil
  have hB : ForestTrace [Event.call "b" appFile [], Event.ret "b" appFile (.int 2)]
      [Shape.mk "b" []] :=
    ForestTrace.cons "b" appFile [] "b" appFile (.int 2) [] [] [] []
      ForestTrace.nil ForestTrace.nil
  have h := c1_root_overwritten hA hB activeState rfl rfl
    (by
      intro e he
      simp only [List.mem_append, List.mem_cons, List.not_mem_nil, or_false] at he
      rcases he with (rfl | rfl) | (rfl | rfl) <;> exact ⟨by decide, rfl⟩)
    (by decide) (by decide)
  exact h

/-- C2 counterexample: the event sequence `enter a, exit, enter b,
exit` is well-formed (a complete two-tree forest trace), yet the
resulting tree's pre-order is `["b"]`, not the enter order
`["a", "b"]` — the first top-level tree is dropped by the root
overwrite — so the claim fails for sequences with more than one
top-level call. -/
theorem c2_counterexample :
    ForestTrace evsTwoTop [Shape.mk "a" [], Shape.mk "b" []] ∧
    enterNames evsTwoTop = ["a", "b"] ∧
    (runEvents activeState evsTwoTop).map
      (fun st2 => (exportedRoot st2).map preorderNames) = .ok (some ["b"]) ∧
    (["b"] : List String) ≠ ["a", "b"] := by
  refine ⟨?_, rfl, rfl, by decide⟩
  have hB : ForestTrace [Event.call "b" appFile [], Event.ret "b" appFile (.int 2)]
      [Shape.mk "b" []] :=
    ForestTrace.cons "b" appFile [] "b" appFile (.int 2) [] [] [] []
      ForestTrace.nil ForestTrace.nil
  exact ForestTrace.cons "a" appFile [] "a" appFile (.int 1) []
    [Event.call "b" appFile [], Event.ret "b" appFile (.int 2)] []
    [Shape.mk "b" []] ForestTrace.nil hB

/-- C2 (amended): for every well-formed event sequence with a single
top-level call (every enter after the first arrives while an enter is
still unmatched), processed from a fresh session with no event
filtered and the depth cap never reached, the resulting tree's
pre-order of routine names equals the enter-event order, and the
descendants of each node are exactly the enter events nested between
its enter and its matching exit (the tree's shape is the trace's
nesting shape). -/
theorem c2_preorder {evs : List Event} {s : Shape} (hT : SessionTrace evs s)
    (st : TracerState) (hEn : st.enabled = true) (hStack : st.call_stack = [])
    (hAdm : ∀ e ∈ evs, evAdmitted st e) (hH : shapeHeight s ≤ st.max_depth) :
    ∃ (st2 : TracerState) (n : Node),
      runEvents st evs = .ok st2 ∧ exportedRoot st2 = some n ∧
      nodeShape n = s ∧ preorderNames n = enterNames evs := by
  cases hT with
  | closed hF =>
    obtain ⟨n, hRun, hShape, hPre⟩ := run_tree_top hF st hEn hStack hAdm hH
    exact ⟨_, n, hRun, rfl, hShape, hPre⟩
  | stillOpen hO =>
    obtain ⟨f, fs, hRun, hShape, hPre⟩ := run_open hO st hEn hAdm
      (by rw [hStack]; simpa using hH)
    rw [hStack] at hRun
    have hRun2 : runEvents st evs = .ok
        { st with call_stack := (f :: fs) ++ [], root := Option.none } := by
      simpa using hRun
    refine ⟨_, collapse (closeFrame f) fs, hRun2, ?_, hShape, hPre⟩
    show exportedRoot { st with call_stack := (f :: fs) ++ [], root := Option.none }
      = some (collapse (closeFrame f) fs)
    simp [exportedRoot]

/-- Witness for C2 (amended): the spec's scenario `outer(x=1)` →
`inner(y=2)` → return 3 → return 3 yields the tree `outer[inner]`
with pre-order `["outer", "inner"]`. -/
theorem c2_preorder_witness :
    ∃ (st2 : TracerState) (n : Node),
      runEvents activeState evsNested = .ok st2 ∧ exportedRoot st2 = some n ∧
      nodeShape n = Shape.mk "outer" [Shape.mk "inner" []] ∧
      preorderNames n = ["outer", "inner"] := by
  have hInner : ForestTrace
      [Event.call "inner" appFile [("y", PyVal.int 2)], Event.ret "inner" appFile (.int 3)]
      [Shape.mk "inner" []] :=
    ForestTrace.cons "inner" appFile [("y", PyVal.int 2)] "inner" appFile (.int 3) [] [] [] []
      ForestTrace.nil ForestTrace.nil
  have hOuter : ForestTrace evsNested [Shape.mk "outer" [Shape.mk "inner" []]] :=
    ForestTrace.cons "outer" appFile [("x", PyVal.int 1)] "outer" appFile (.int 3)
      [Event.call "inner" appFile [("y", PyVal.int 2)], Event.ret "inner" appFile (.int 3)]
      [] [Shape.mk "inner" []] [] hInner ForestTrace.nil
  obtain ⟨st2, n, h1, h2, h3, h4⟩ := c2_preorder
    (SessionTrace.closed _ _ hOuter) activeState rfl rfl
    (by
      intro e he
      simp only [evsNested, List.mem_cons, List.not_mem_nil, or_false] at he
      rcases he with rfl | rfl | rfl | rfl <;> exact ⟨by decide, rfl⟩)
    (by decide)
  exact ⟨st2, n, h1, h2, h3, h4.trans rfl⟩

/-- C3 counterexample: with `max_depth = 2`, a chain of 7 nested
enters creates 3 nodes (a path of length 3), not 2: the guard
`len(call_stack) > max_depth` still admits the push that takes the
stack from depth 2 to depth 3. -/
theorem c3_counterexample :
    (runEvents cappedState chainSeven).map (fun st2 => st2.call_stack.length) = .ok 3 ∧
    (runEvents cappedState chainSeven).map
      (fun st2 => (exportedRoot st2).map countNodes) = .ok (some 3) ∧
    (runEvents cappedState chainSeven).map
      (fun st2 => (exportedRoot st2).map nodeHeight) = .ok (some 3) ∧
    (3 : Nat) ≠ 2 := by
  refine ⟨rfl, rfl, rfl, by decide⟩

/-- C3 (amended): with `maxDepth = N`, a chain of `N + 5` nested,
unfiltered enter events from a fresh session creates exactly `N + 1`
nodes and the resulting tree is a single path of length `N + 1`
(size = height = N + 1); once the stack is deeper than `maxDepth`,
a further event — in particular a further enter — pushes no node and
changes nothing. -/
theorem c3_depth_cap (N : Nat) (n file : String) (ps : List (String × PyVal))
    (ps2 : List (String × StoredVal)) (st : TracerState)
    (hEn : st.enabled = true) (hStack : st.call_stack = [])
    (hMD : st.max_depth = N)
    (hIg : shouldIgnore st file n = false) (hP : storeParams st ps = .ok ps2) :
    ∃ st2 : TracerState,
      runEvents st (List.replicate (N + 5) (.call n file ps)) = .ok st2 ∧
      st2.call_stack.length = N + 1 ∧
      (∃ c : Node, exportedRoot st2 = some c ∧ countNodes c = N + 1 ∧ nodeHeight c = N + 1) ∧
      (∀ e : Event, tracerStep st2 e = .ok st2) := by
  have hCall : tracerStep st (.call n file ps) = .ok
      { st with call_stack := [(⟨n, file, ps2, []⟩ : Frame)], root := Option.none } := by
    have h0 := tracerStep_call st n file ps ps2 hEn hIg (by rw [hStack]; simp) hP
    rw [hStack] at h0
    simpa using h0
  have hChain := run_chain n file ps ps2 (N + 4)
    { st with call_stack := [(⟨n, file, ps2, []⟩ : Frame)], root := Option.none } 1
    hEn hIg hP rfl (by omega) (by omega)
  have hproj : ({ st with
      call_stack := [(⟨n, file, ps2, []⟩ : Frame)],
      root := Option.none } : TracerState).max_depth = st.max_depth := rfl
  rw [hproj] at hChain
  have hmin : min (1 + (N + 4)) (st.max_depth + 1) = N + 1 := by
    rw [hMD]; omega
  rw [hmin] at hChain
  have hChain2 : runEvents
      { st with call_stack := [(⟨n, file, ps2, []⟩ : Frame)], root := Option.none }
      (List.replicate (N + 4) (.call n file ps)) = .ok
      { st with
        call_stack := List.replicate (N + 1) (⟨n, file, ps2, []⟩ : Frame),
        root := Option.none } :=
    hChain
  refine ⟨{ st with
      call_stack := List.replicate (N + 1) (⟨n, file, ps2, []⟩ : Frame),
      root := Option.none }, ?_, ?_, ?_, ?_⟩
  · rw [show List.replicate (N + 5) (Event.call n file ps)
        = Event.call n file ps :: List.replicate (N + 4) (Event.call n file ps) from rfl,
      runEvents_cons, hCall, except_bind_ok, hChain2]
  · simp
  · refine ⟨collapse (closeFrame ⟨n, file, ps2, []⟩) (List.replicate N (⟨n, file, ps2, []⟩ : Frame)),
      ?_, ?_, ?_⟩
    · show exportedRoot
        { st with
          call_stack :=
            (⟨n, file, ps2, []⟩ : Frame) :: List.replicate N (⟨n, file, ps2, []⟩ : Frame),
          root := Option.none } = _
      rfl
    · rw [(collapse_replicate n file ps2 N (closeFrame ⟨n, file, ps2, []⟩)).1]
      simp [closeFrame, countNodes, countNodesL]
      omega
    · rw [(collapse_replicate n file ps2 N (closeFrame ⟨n, file, ps2, []⟩)).2]
      simp [closeFrame, nodeHeight, nodeHeightL]
      omega
  · intro e
    apply tracerStep_frozen
    simp [hMD]

/-- Witness for C3 (amended) at `N = 3`: eight nested enters create
four nodes forming a path of length four. -/
theorem c3_depth_cap_witness :
    ∃ st2 : TracerState,
      runEvents { activeState with max_depth := 3 }
        (List.replicate (3 + 5) (.call "f" appFile [])) = .ok st2 ∧
      st2.call_stack.length = 3 + 1 ∧
      (∃ c : Node, exportedRoot st2 = some c ∧ countNodes c = 3 + 1 ∧ nodeHeight c = 3 + 1) ∧
      (∀ e : Event, tracerStep st2 e = .ok st2) :=
  c3_depth_cap 3 "f" appFile [] [] { activeState with max_depth := 3 }
    rfl rfl rfl (by decide) rfl

end Pytrace
